import Mathlib

/-!
Verification development for the codex-shepherd repository.

The definitions below are a shallow embedding of the Python sources under
`src/shepherd/`: the planner (`planner.py`), the watchdog (`watchdog.py`),
the policy enforcer (`policies.py`), the state store (`state.py`) and the
daemon control loop (`daemon.py`).  Pure functions become Lean functions,
fallible code returns `Except`/`Option`, and the stateful control loop is
modelled as a step function over an explicit state record.  JSON values
parsed by `json.loads` are modelled by the inductive type `JValue`.
-/

set_option maxRecDepth 4096

namespace Shepherd

/-- A JSON value as produced by the json-subset reader in `state.py`
(`json.loads` restricted to the artifacts this program reads and writes).
Numbers are modelled as integers, matching the integer-only schemas of
`_validate_plan`, `_validate_active_task` and `_validate_codex_result`. -/
inductive JValue where
  | null : JValue
  | bool (b : Bool) : JValue
  | int (n : Int) : JValue
  | str (s : String) : JValue
  | arr (xs : List JValue) : JValue
  | obj (fields : List (String × JValue)) : JValue

/-- Python `d.get(k)` on a parsed JSON object: first binding wins (keys of
the artifacts handled here are unique). -/
def jLookup (fields : List (String × JValue)) (k : String) : Option JValue :=
  (fields.find? (fun kv => kv.1 = k)).map (fun kv => kv.2)

/-- Python `payload.get(k, d)` for an object payload. -/
def jGetD (v : JValue) (k : String) (d : JValue) : JValue :=
  match v with
  | .obj fields => (jLookup fields k).getD d
  | _ => d

/-- A plan task after strict schema validation (`_validate_task` in
`state.py`): required string fields `id`, `objective`, `derived_from`, a
`status` string, and the optional `depends_on` list defaulted to `[]`
exactly as `task.get(\x22depends_on\x22, [])` does in `planner.py`. -/
structure Task where
  id : String
  objective : String
  derived_from : String
  status : String
  depends_on : List String := []
deriving DecidableEq, Repr

/-- A plan objective after strict schema validation (`_validate_objective`). -/
structure Objective where
  id : String
  source : String
  status : String
deriving DecidableEq, Repr

/-- A plan after strict schema validation (`_validate_plan`). -/
structure Plan where
  version : Int
  objectives : List Objective
  tasks : List Task
deriving DecidableEq, Repr

/-- The active-task projection built by `Planner.activate_task`:
the task fields plus `timeout_seconds`. -/
structure ActiveTask where
  task : Task
  timeout_seconds : Int
deriving DecidableEq, Repr

/-- `PlannerError` from `planner.py`, with one constructor per raise site. -/
inductive PlannerErr where
  /-- "Plan contains an active task without execution context." -/
  | activeWithoutContext
  /-- "Task id must be a non-empty string." -/
  | badTaskId
  /-- "Duplicate task id: ..." -/
  | duplicateTaskId (id : String)
  /-- "Dependency not found: ..." -/
  | dependencyNotFound (dep : String)
  /-- "Task not found: ..." -/
  | taskNotFound (id : String)
deriving DecidableEq, Repr

/-- Lookup in the association list built by `Planner._task_map`. -/
def lookupTask (m : List (String × Task)) (id : String) : Option Task :=
  (m.find? (fun kv => kv.1 = id)).map (fun kv => kv.2)

/-- The loop body of `Planner._task_map`: walk the tasks in order, reject an
empty id (the `isinstance` check is vacuous for validated tasks) and a
duplicate id, and accumulate `id -> task` bindings in document order. -/
def taskMapGo (acc : List (String × Task)) : List Task → Except PlannerErr (List (String × Task))
  | [] => .ok acc
  | t :: rest =>
    if t.id = "" then .error .badTaskId
    else if (lookupTask acc t.id).isSome then .error (.duplicateTaskId t.id)
    else taskMapGo (acc ++ [(t.id, t)]) rest

/-- `Planner._task_map`. -/
def task_map (tasks : List Task) : Except PlannerErr (List (String × Task)) :=
  taskMapGo [] tasks

/-- `Planner._dependencies_satisfied`: walk `depends_on` in order; a
dependency id absent from the task map raises `PlannerError`; a dependency
whose status is not `done` makes the whole check return `False`; otherwise
continue.  (The `isinstance` list/string checks are vacuous for validated
tasks.) -/
def dependencies_satisfied (deps : List String) (m : List (String × Task)) :
    Except PlannerErr Bool :=
  match deps with
  | [] => .ok true
  | dep :: rest =>
    match lookupTask m dep with
    | none => .error (.dependencyNotFound dep)
    | some t => if t.status ≠ "done" then .ok false else dependencies_satisfied rest m

/-- The scanning loop of `Planner.select_next_task`: first `active` task
raises, non-`pending` tasks are skipped, a `pending` task is returned when
its dependencies are satisfied and skipped when they are not. -/
def selectScan (m : List (String × Task)) : List Task → Except PlannerErr (Option Task)
  | [] => .ok none
  | t :: rest =>
    if t.status = "active" then .error .activeWithoutContext
    else if t.status ≠ "pending" then selectScan m rest
    else
      match dependencies_satisfied t.depends_on m with
      | .error e => .error e
      | .ok true => .ok (some t)
      | .ok false => selectScan m rest

/-- `Planner.select_next_task`: build the task map, then scan in document
order. -/
def select_next_task (plan : Plan) : Except PlannerErr (Option Task) :=
  match task_map plan.tasks with
  | .error e => .error e
  | .ok m => selectScan m plan.tasks

/-- `Planner._find_task`: first task with the given id, if any. -/
def find_task (plan : Plan) (taskId : String) : Option Task :=
  plan.tasks.find? (fun t => t.id = taskId)

/-- In-place mutation `task[\x22status\x22] = s` through `_find_task`:
set the status of the first task carrying the id. -/
def setTaskStatusFirst : List Task → String → String → List Task
  | [], _, _ => []
  | t :: rest, taskId, s =>
    if t.id = taskId then { t with status := s } :: rest
    else t :: setTaskStatusFirst rest taskId s

/-- The per-objective body of `Planner._refresh_objective_statuses`:
`related` is the list of tasks whose `objective` field equals the
objective id; an objective with no related tasks is left untouched;
otherwise `statuses <= \x7b\x22done\x22\x7d` yields `complete`, a non-empty
intersection with the in-flight statuses yields `in_progress`, and the
remaining case yields `pending`. -/
def rollupObjective (tasks : List Task) (obj : Objective) : Objective :=
  let related := tasks.filter (fun t => t.objective = obj.id)
  if related.isEmpty then obj
  else if related.all (fun t => t.status = "done") then { obj with status := "complete" }
  else if related.any (fun t =>
      t.status = "active" || t.status = "done" || t.status = "failed" || t.status = "blocked")
    then { obj with status := "in_progress" }
  else { obj with status := "pending" }

/-- `Planner._refresh_objective_statuses` (the `isinstance` guards on
objective ids and task objective fields are vacuous for validated plans). -/
def refresh_objective_statuses (plan : Plan) : Plan :=
  { plan with objectives := plan.objectives.map (rollupObjective plan.tasks) }

/-- `Planner.activate_task`: find the task (raising `PlannerError` when it
is absent), set its status to `active`, recompute objective statuses, and
return the plan together with the active-task projection. -/
def activate_task (plan : Plan) (taskId : String) (timeoutSeconds : Int) :
    Except PlannerErr (Plan × ActiveTask) :=
  match find_task plan taskId with
  | none => .error (.taskNotFound taskId)
  | some t =>
    let plan2 := refresh_objective_statuses
      { plan with tasks := setTaskStatusFirst plan.tasks taskId "active" }
    .ok (plan2, { task := { t with status := "active" }, timeout_seconds := timeoutSeconds })

/-- `Planner.finalize_task`. -/
def finalize_task (plan : Plan) (taskId : String) (status : String) :
    Except PlannerErr Plan :=
  match find_task plan taskId with
  | none => .error (.taskNotFound taskId)
  | some _ =>
    .ok (refresh_objective_statuses
      { plan with tasks := setTaskStatusFirst plan.tasks taskId status })

/-- `Planner.reset_task_for_retry`. -/
def reset_task_for_retry (plan : Plan) (taskId : String) : Except PlannerErr Plan :=
  match find_task plan taskId with
  | none => .error (.taskNotFound taskId)
  | some _ =>
    .ok (refresh_objective_statuses
      { plan with tasks := setTaskStatusFirst plan.tasks taskId "pending" })

/-- The three planner mutations named by the objective-rollup invariant. -/
inductive Mutation where
  | activate (timeoutSeconds : Int)
  | finalizeWith (status : String)
  | reset
deriving DecidableEq, Repr

/-- Dispatch a planner mutation, forgetting the active-task projection of
`activate_task`. -/
def applyMutation : Mutation → Plan → String → Except PlannerErr Plan
  | .activate timeoutSeconds, plan, taskId =>
    (activate_task plan taskId timeoutSeconds).map (fun r => r.1)
  | .finalizeWith status, plan, taskId => finalize_task plan taskId status
  | .reset, plan, taskId => reset_task_for_retry plan taskId

/-- Modelled from the spec (section 4.4 of the specification): the objective
status rollup stated in the words of the claim, to be compared with the
source-derived `rollupObjective`.  For an objective with at least one
related task: `complete` when every related task is `done`, else
`in_progress` when some related task is among `active`, `done`, `failed`
or `blocked`, else `pending`; with no related tasks the prior status is
kept. -/
def rollupSpec (related : List Task) (prior : String) : String :=
  if related = [] then prior
  else if related.all (fun t => t.status = "done") then "complete"
  else if related.any (fun t =>
      t.status = "active" || t.status = "done" || t.status = "failed" || t.status = "blocked")
    then "in_progress"
  else "pending"

/-- `RetryTracker` from `watchdog.py`.  The two limits come from validated
config fields (`max_retries_per_task` non-negative, `max_consecutive_failures`
positive) and the counters only ever grow, so `Nat` is a faithful carrier. -/
structure RetryTracker where
  max_retries_per_task : Nat
  max_consecutive_failures : Nat
  attempts : List (String × Nat) := []
  consecutive_failures : Nat := 0
deriving DecidableEq, Repr

/-- `self.attempts.get(task_id, 0)`. -/
def attemptsOf (tr : RetryTracker) (taskId : String) : Nat :=
  ((tr.attempts.find? (fun kv => kv.1 = taskId)).map (fun kv => kv.2)).getD 0

/-- Remove the binding for a task id (`dict.pop(task_id, None)`). -/
def removeAttempt (attempts : List (String × Nat)) (taskId : String) : List (String × Nat) :=
  attempts.filter (fun kv => kv.1 ≠ taskId)

/-- Replace-or-append a binding (`dict.__setitem__`). -/
def setAttempt : List (String × Nat) → String → Nat → List (String × Nat)
  | [], taskId, n => [(taskId, n)]
  | kv :: rest, taskId, n =>
    if kv.1 = taskId then (taskId, n) :: rest else kv :: setAttempt rest taskId n

/-- `RetryTracker.record_success`. -/
def record_success (tr : RetryTracker) (taskId : String) : RetryTracker :=
  { tr with consecutive_failures := 0, attempts := removeAttempt tr.attempts taskId }

/-- `RetryTracker.record_failure`. -/
def record_failure (tr : RetryTracker) (taskId : String) : RetryTracker :=
  { tr with
    consecutive_failures := tr.consecutive_failures + 1,
    attempts := setAttempt tr.attempts taskId (attemptsOf tr taskId + 1) }

/-- `RetryTracker.can_retry`. -/
def can_retry (tr : RetryTracker) (taskId : String) : Bool :=
  attemptsOf tr taskId ≤ tr.max_retries_per_task

/-- `RetryTracker.too_many_consecutive_failures`. -/
def too_many_consecutive_failures (tr : RetryTracker) : Bool :=
  tr.max_consecutive_failures ≤ tr.consecutive_failures

/-- The `main` wiring in `daemon.py` (lines 43-53): the tracker is built
with the clamped `min(config.max_retries_per_task, 1)` and the configured
`max_consecutive_failures`. -/
def mkTracker (maxRetriesPerTask maxConsecutiveFailures : Nat) : RetryTracker :=
  { max_retries_per_task := min maxRetriesPerTask 1,
    max_consecutive_failures := maxConsecutiveFailures }

/-!  Path model.  Absolute filesystem paths are component lists anchored at
the filesystem root.  `pathlib` drops empty and `.` components when a path
string is split, and `Path.resolve()` on a symlink-free tree removes `..`
components lexically; `normalizePath` models that. -/

/-- Split a character list into segments at `/`. -/
def splitSegsGo (cur : List Char) : List Char → List (List Char)
  | [] => [cur.reverse]
  | c :: cs => if c = '/' then cur.reverse :: splitSegsGo [] cs else splitSegsGo (c :: cur) cs

/-- Components of a path string, as `pathlib` parses them: split on `/`,
dropping empty and `.` segments. -/
def splitPath (s : String) : List String :=
  ((splitSegsGo [] s.data).map (fun cs => String.mk cs)).filter (fun c => c ≠ "" && c ≠ ".")

/-- `Path(s).is_absolute()` on POSIX. -/
def isAbsPath (s : String) : Bool :=
  match s.data with
  | c :: _ => c = '/'
  | [] => false

/-- Accumulator loop for `normalizePath`: `..` pops the last component
(a no-op at the root, as `Path.resolve` behaves), `.` is dropped. -/
def normalizeGo (acc : List String) : List String → List String
  | [] => acc
  | c :: rest =>
    if c = ".." then normalizeGo acc.dropLast rest
    else if c = "." then normalizeGo acc rest
    else normalizeGo (acc ++ [c]) rest

/-- `Path.resolve()` on a symlink-free tree: lexical normalization. -/
def normalizePath (p : List String) : List String := normalizeGo [] p

/-- `resolve_path` from `policies.py`: relative entries are anchored at the
project root, absolute entries are used as-is, then canonicalized. -/
def resolve_path (projectRoot : List String) (pathStr : String) : List String :=
  normalizePath (if isAbsPath pathStr then splitPath pathStr else projectRoot ++ splitPath pathStr)

/-- `_is_within` from `policies.py` (and the identical helper in
`state.py`): `path.relative_to(directory)` succeeds exactly when the
directory components are a prefix of the path components. -/
def is_within (path directory : List String) : Bool := directory.isPrefixOf path

/-- `PolicyViolation` from `policies.py`, one constructor per raise site;
`forbidden` carries the lexicographically sorted offender list. -/
inductive PolicyErr where
  /-- "files_changed entries must be strings." -/
  | nonString
  /-- "Forbidden files modified: ..." -/
  | forbidden (entries : List String)
deriving DecidableEq, Repr

/-- `sorted` on a list of strings. -/
def sortStrings (l : List String) : List String :=
  l.insertionSort (fun a b => a ≤ b)

/-- The entry loop of `assert_no_forbidden_changes`: a non-string entry
raises immediately; a string entry is resolved and appended to the
forbidden accumulator when it lies under the design directory, lies under
the state directory, or escapes the project root; at the end a non-empty
accumulator raises with the sorted offenders. -/
def assertScan (rootR designR stateR : List String) (forbidden : List String) :
    List JValue → Option PolicyErr
  | [] => if forbidden.isEmpty then none else some (.forbidden (sortStrings forbidden))
  | entry :: rest =>
    match entry with
    | .str s =>
      let resolved := resolve_path rootR s
      if is_within resolved designR || is_within resolved stateR then
        assertScan rootR designR stateR (forbidden ++ [s]) rest
      else if !(is_within resolved rootR) then
        assertScan rootR designR stateR (forbidden ++ [s]) rest
      else assertScan rootR designR stateR forbidden rest
    | _ => some .nonString

/-- `assert_no_forbidden_changes` from `policies.py`: resolve the three
roots, then scan the reported entries. -/
def assert_no_forbidden_changes (filesChanged : List JValue)
    (projectRoot designDir stateDir : List String) : Option PolicyErr :=
  let designR := normalizePath designDir
  let stateR := normalizePath stateDir
  let rootR := normalizePath projectRoot
  assertScan rootR designR stateR [] filesChanged

/-- Modelled from the spec (section 4.3): an entry is forbidden exactly
when its resolution lies under the design directory, lies under the state
directory, or falls outside the project root.  Stated in the words of the
claim, to be compared with the accumulator scan of the source. -/
def forbiddenSpec (rootR designR stateR : List String) (s : String) : Bool :=
  let resolved := resolve_path rootR s
  is_within resolved designR || is_within resolved stateR || !(is_within resolved rootR)

/-!  JSON serialization, modelling `json.dumps(data, indent=2)` as used by
`_atomic_write_json` in `state.py` and `_json_dump` in `planner.py`.
String escaping covers the characters these artifacts carry (backslash,
quote, newline, tab, carriage return). -/

/-- Escape one character as `json.dumps` does for the characters used by
the artifacts of this program. -/
def jsonEscapeChar (c : Char) : String :=
  if c = '\\' then "\\\\"
  else if c = '"' then "\\\""
  else if c = '\n' then "\\n"
  else if c = '\t' then "\\t"
  else if c = '\x0d' then "\\r"
  else String.singleton c

/-- Escape a string for JSON output. -/
def jsonEscape (s : String) : String := String.join (s.data.map jsonEscapeChar)

/-- `indent=2` padding at a nesting level. -/
def pad (lvl : Nat) : String := String.mk (List.replicate (2 * lvl) ' ')

mutual

/-- `json.dumps(v, indent=2)` at a nesting level: scalars inline, empty
containers inline, non-empty containers one element per line with the
closing bracket at the current level. -/
def jsonDumps : JValue → Nat → String
  | .null, _ => "null"
  | .bool b, _ => if b then "true" else "false"
  | .int n, _ => toString n
  | .str s, _ => "\"" ++ jsonEscape s ++ "\""
  | .arr [], _ => "[]"
  | .arr (x :: xs), lvl => "[\n" ++ jsonDumpsItems (x :: xs) (lvl + 1) ++ "\n" ++ pad lvl ++ "]"
  | .obj [], _ => "\x7b\x7d"
  | .obj (f :: fs), lvl =>
    "\x7b\n" ++ jsonDumpsFields (f :: fs) (lvl + 1) ++ "\n" ++ pad lvl ++ "\x7d"

/-- Array elements, comma-newline separated, each at the given level. -/
def jsonDumpsItems : List JValue → Nat → String
  | [], _ => ""
  | [x], lvl => pad lvl ++ jsonDumps x lvl
  | x :: y :: xs, lvl => pad lvl ++ jsonDumps x lvl ++ ",\n" ++ jsonDumpsItems (y :: xs) lvl

/-- Object fields, comma-newline separated, each at the given level. -/
def jsonDumpsFields : List (String × JValue) → Nat → String
  | [], _ => ""
  | [(k, v)], lvl => pad lvl ++ "\"" ++ jsonEscape k ++ "\": " ++ jsonDumps v lvl
  | (k, v) :: g :: fs, lvl =>
    pad lvl ++ "\"" ++ jsonEscape k ++ "\": " ++ jsonDumps v lvl ++ ",\n" ++
      jsonDumpsFields (g :: fs) lvl

end

/-- The serialized text `_atomic_write_json` and `_json_dump` produce:
`json.dumps(data, indent=2) + \x22\n\x22`. -/
def json_dumps_py (v : JValue) : String := jsonDumps v 0 ++ "\n"

/-!  Schema validation from `state.py`.  Each checker returns the dotted
context path of the first violation, or `none`; the error message bodies
are not modelled, only the failing context. -/

/-- `_require_keys`: every required key present (the coarse context is the
one `state.py` passes in). -/
def requireKeys (fields : List (String × JValue)) (required : List String) (ctx : String) :
    Option String :=
  if required.all (fun k => (jLookup fields k).isSome) then none else some ctx

/-- `_reject_extra_keys`. -/
def rejectExtraKeys (fields : List (String × JValue)) (allowed : List String) (ctx : String) :
    Option String :=
  if fields.all (fun kv => allowed.contains kv.1) then none else some ctx

/-- `_require_int`: `bool` is a distinct `JValue` constructor, which models
the `isinstance(value, bool)` rejection in the source. -/
def requireInt (v : JValue) (ctx : String) : Option String :=
  match v with
  | .int _ => none
  | _ => some ctx

/-- `_require_string`. -/
def requireString (v : JValue) (ctx : String) : Option String :=
  match v with
  | .str _ => none
  | _ => some ctx

/-- `_require_enum` (`_require_string` then membership; both report the
same context). -/
def requireEnum (v : JValue) (allowed : List String) (ctx : String) : Option String :=
  match v with
  | .str s => if allowed.contains s then none else some ctx
  | _ => some ctx

/-- `_require_string_list` (the per-index context is collapsed onto the
list context). -/
def requireStringList (v : JValue) (ctx : String) : Option String :=
  match v with
  | .arr xs =>
    if xs.all (fun x => match x with | .str _ => true | _ => false) then none else some ctx
  | _ => some ctx

/-- Field access after a successful `requireKeys` (`mapping[key]`). -/
def jfield (fields : List (String × JValue)) (k : String) : JValue :=
  (jLookup fields k).getD .null

/-- Validate each element of a list with its indexed context, first error
wins. -/
def validateEachIdx (f : JValue → String → Option String) (ctx : String) :
    List JValue → Nat → Option String
  | [], _ => none
  | x :: xs, i =>
    f x (ctx ++ "[" ++ toString i ++ "]") <|> validateEachIdx f ctx xs (i + 1)

/-- `OBJECTIVE_STATUSES`. -/
def objectiveStatusList : List String := ["pending", "in_progress", "complete"]

/-- `TASK_STATUSES`. -/
def taskStatusList : List String := ["pending", "active", "done", "failed", "blocked"]

/-- `CODEX_RESULT_STATUSES`. -/
def codexStatusList : List String := ["success", "failed", "blocked"]

/-- `_validate_objective`. -/
def validateObjective (v : JValue) (ctx : String) : Option String :=
  match v with
  | .obj fields =>
    requireKeys fields ["id", "source", "status"] ctx <|>
    rejectExtraKeys fields ["id", "source", "status"] ctx <|>
    requireString (jfield fields "id") (ctx ++ ".id") <|>
    requireString (jfield fields "source") (ctx ++ ".source") <|>
    requireEnum (jfield fields "status") objectiveStatusList (ctx ++ ".status")
  | _ => some ctx

/-- `_validate_task`. -/
def validateTask (v : JValue) (ctx : String) : Option String :=
  match v with
  | .obj fields =>
    requireKeys fields ["id", "objective", "derived_from", "status"] ctx <|>
    rejectExtraKeys fields
      ["id", "objective", "derived_from", "status", "depends_on", "scope", "success_criteria"]
      ctx <|>
    requireString (jfield fields "id") (ctx ++ ".id") <|>
    requireString (jfield fields "objective") (ctx ++ ".objective") <|>
    requireString (jfield fields "derived_from") (ctx ++ ".derived_from") <|>
    requireEnum (jfield fields "status") taskStatusList (ctx ++ ".status") <|>
    (match jLookup fields "depends_on" with
     | some d => requireStringList d (ctx ++ ".depends_on")
     | none => none) <|>
    (match jLookup fields "scope" with
     | some d => requireStringList d (ctx ++ ".scope")
     | none => none) <|>
    (match jLookup fields "success_criteria" with
     | some d => requireStringList d (ctx ++ ".success_criteria")
     | none => none)
  | _ => some ctx

/-- `_validate_plan`. -/
def validate_plan (v : JValue) : Option String :=
  match v with
  | .obj fields =>
    requireKeys fields ["version", "objectives", "tasks"] "plan" <|>
    rejectExtraKeys fields ["version", "objectives", "tasks"] "plan" <|>
    requireInt (jfield fields "version") "plan.version" <|>
    (match jfield fields "objectives" with
     | .arr xs => validateEachIdx validateObjective "plan.objectives" xs 0
     | _ => some "plan.objectives") <|>
    (match jfield fields "tasks" with
     | .arr xs => validateEachIdx validateTask "plan.tasks" xs 0
     | _ => some "plan.tasks")
  | _ => some "plan"

/-- `_validate_active_task`. -/
def validate_active_task (v : JValue) : Option String :=
  match v with
  | .obj fields =>
    requireKeys fields ["id", "objective", "derived_from", "status", "timeout_seconds"]
      "active_task" <|>
    rejectExtraKeys fields
      ["id", "objective", "derived_from", "status", "timeout_seconds",
       "depends_on", "scope", "success_criteria"] "active_task" <|>
    requireString (jfield fields "id") "active_task.id" <|>
    requireString (jfield fields "objective") "active_task.objective" <|>
    requireString (jfield fields "derived_from") "active_task.derived_from" <|>
    requireEnum (jfield fields "status") taskStatusList "active_task.status" <|>
    requireInt (jfield fields "timeout_seconds") "active_task.timeout_seconds" <|>
    (match jLookup fields "depends_on" with
     | some d => requireStringList d "active_task.depends_on"
     | none => none) <|>
    (match jLookup fields "scope" with
     | some d => requireStringList d "active_task.scope"
     | none => none) <|>
    (match jLookup fields "success_criteria" with
     | some d => requireStringList d "active_task.success_criteria"
     | none => none)
  | _ => some "active_task"

/-- `_validate_codex_result`. -/
def validate_codex_result (v : JValue) : Option String :=
  match v with
  | .obj fields =>
    requireKeys fields ["status", "files_changed", "tests_run", "notes"] "codex_result" <|>
    rejectExtraKeys fields ["status", "files_changed", "tests_run", "notes"] "codex_result" <|>
    requireEnum (jfield fields "status") codexStatusList "codex_result.status" <|>
    requireStringList (jfield fields "files_changed") "codex_result.files_changed" <|>
    requireStringList (jfield fields "tests_run") "codex_result.tests_run" <|>
    requireString (jfield fields "notes") "codex_result.notes"
  | _ => some "codex_result"

/-!  The state store (`StateStore` in `state.py`).  The filesystem is a
map from normalized absolute paths to file contents, plus the set of
existing directories (`_ensure_parent_dir` checks the latter). -/

/-- `StateError` and its subclasses in `state.py`, one constructor per
distinct condition (`validation` carries the dotted context of the failing
check, `readOnly` covers both `ReadOnlyStateError` raise sites). -/
inductive StateErr where
  /-- `ReadOnlyStateError`. -/
  | readOnly
  /-- plain `StateError`: "Refusing to write unknown state file". -/
  | unknownWrite
  /-- `StateValidationError` with the context of the failing check. -/
  | validation (ctx : String)
  /-- `MissingStateError`. -/
  | missingState
  /-- `TypeError` for non-dict JSON content or non-string text content. -/
  | contentType
deriving DecidableEq, Repr

/-- On-disk state: file contents keyed by normalized path, and the set of
existing directories. -/
structure DiskState where
  files : List (List String × String)
  dirs : List (List String)
deriving DecidableEq, Repr

/-- Content of the file at a path, if present. -/
def fileAt (d : DiskState) (p : List String) : Option String :=
  ((d.files.find? (fun kv => kv.1 = normalizePath p)).map (fun kv => kv.2))

/-- Replace-or-create a file (the net effect of write-temp-then-rename). -/
def putFileGo (key : List String) (content : String) :
    List (List String × String) → List (List String × String)
  | [] => [(key, content)]
  | kv :: rest =>
    if kv.1 = key then (key, content) :: rest else kv :: putFileGo key content rest

/-- Commit a file write. -/
def putFile (d : DiskState) (p : List String) (content : String) : DiskState :=
  { d with files := putFileGo (normalizePath p) content d.files }

/-- The path partitioning computed by `StateStore.__init__`: the three
read-only files, the five writable files, the resolved design directory,
and the strict-validation flag. -/
structure StoreModel where
  read_only_paths : List (List String)
  writable_paths : List (List String)
  design_resolved : List String
  plan_path : List String
  active_task_path : List String
  summary_path : List String
  last_result_path : List String
  progress_path : List String
  strict_schema_validation : Bool
deriving DecidableEq, Repr

/-- `StateStore.__init__`: resolve the project root, derive the state and
design directories and the eight artifact paths, and partition them. -/
def mkStateStore (projectRoot : List String) (stateDir designDir : String)
    (configPath : Option (List String)) (strict : Bool) : StoreModel :=
  let root := normalizePath projectRoot
  let aiDir := root ++ [stateDir]
  let designDir2 := root ++ [designDir]
  let configP := configPath.getD (root ++ ["ai", "config.json"])
  let goalsP := aiDir ++ ["GOALS.md"]
  let sourcesP := aiDir ++ ["SOURCES.yaml"]
  let planP := aiDir ++ ["PLAN.yaml"]
  let activeP := aiDir ++ ["ACTIVE_TASK.yaml"]
  let summaryP := aiDir ++ ["SUMMARY.md"]
  let lastP := aiDir ++ ["LAST_RESULT.json"]
  let progressP := aiDir ++ ["PROGRESS.yaml"]
  { read_only_paths := [normalizePath configP, normalizePath goalsP, normalizePath sourcesP],
    writable_paths :=
      [normalizePath planP, normalizePath activeP, normalizePath summaryP,
       normalizePath lastP, normalizePath progressP],
    design_resolved := normalizePath designDir2,
    plan_path := planP,
    active_task_path := activeP,
    summary_path := summaryP,
    last_result_path := lastP,
    progress_path := progressP,
    strict_schema_validation := strict }

/-- `_ensure_writable_path`: read-only paths and anything under the design
directory raise `ReadOnlyStateError`; a path outside the writable set
raises plain `StateError`. -/
def ensure_writable_path (st : StoreModel) (p : List String) : Option StateErr :=
  let resolved := normalizePath p
  if st.read_only_paths.contains resolved then some .readOnly
  else if is_within resolved st.design_resolved then some .readOnly
  else if !(st.writable_paths.contains resolved) then some .unknownWrite
  else none

/-- `_ensure_parent_dir`. -/
def ensure_parent_dir (d : DiskState) (p : List String) : Option StateErr :=
  if d.dirs.contains ((normalizePath p).dropLast) then none else some .missingState

/-- `_atomic_write_text`: the type check, the writability check and the
parent check all run before any bytes reach the disk; only the final
rename mutates the target (Lean strings are always strings, so the
`isinstance` type check never fires). -/
def atomic_write_text (st : StoreModel) (d : DiskState) (p : List String) (content : String) :
    DiskState × Option StateErr :=
  match ensure_writable_path st p with
  | some e => (d, some e)
  | none =>
    match ensure_parent_dir d p with
    | some e => (d, some e)
    | none => (putFile d p content, none)

/-- `_atomic_write_json`: non-dict data is a `TypeError` before anything
else; then the same guarded atomic write with the serialized payload
(`JValue` data is always serializable, so the `json.dumps` failure branch
never fires). -/
def atomic_write_json (st : StoreModel) (d : DiskState) (p : List String) (v : JValue) :
    DiskState × Option StateErr :=
  match v with
  | .obj _ =>
    match ensure_writable_path st p with
    | some e => (d, some e)
    | none =>
      match ensure_parent_dir d p with
      | some e => (d, some e)
      | none => (putFile d p (json_dumps_py v), none)
  | _ => (d, some .contentType)

/-- `StateStore.write_plan`: validate first under strict mode, then write
atomically. -/
def write_plan_store (st : StoreModel) (d : DiskState) (plan : JValue) :
    DiskState × Option StateErr :=
  if st.strict_schema_validation then
    match validate_plan plan with
    | some c => (d, some (.validation c))
    | none => atomic_write_json st d st.plan_path plan
  else atomic_write_json st d st.plan_path plan

/-- `StateStore.write_active_task`. -/
def write_active_task_store (st : StoreModel) (d : DiskState) (task : JValue) :
    DiskState × Option StateErr :=
  if st.strict_schema_validation then
    match validate_active_task task with
    | some c => (d, some (.validation c))
    | none => atomic_write_json st d st.active_task_path task
  else atomic_write_json st d st.active_task_path task

/-- `StateStore.write_last_result`. -/
def write_last_result_store (st : StoreModel) (d : DiskState) (result : JValue) :
    DiskState × Option StateErr :=
  if st.strict_schema_validation then
    match validate_codex_result result with
    | some c => (d, some (.validation c))
    | none => atomic_write_json st d st.last_result_path result
  else atomic_write_json st d st.last_result_path result

/-- `DEFAULT_PROGRESS` from `state.py`. -/
def DEFAULT_PROGRESS : String := "objectives: \x7b\x7d\n"

/-- `StateStore.load_progress`: the default when the file is absent,
otherwise the file text (never an error). -/
def load_progress (st : StoreModel) (d : DiskState) : String :=
  match fileAt d st.progress_path with
  | none => DEFAULT_PROGRESS
  | some s => s

/-- The progress snapshot built by `Planner.write_progress`:
`\x7bobjectives: id->status, tasks: id->status\x7d`. -/
def progressSnapshot (plan : Plan) : JValue :=
  .obj
    [("objectives", .obj (plan.objectives.map (fun o => (o.id, .str o.status)))),
     ("tasks", .obj (plan.tasks.map (fun t => (t.id, .str t.status))))]

/-- The text `Planner.write_progress` persists (`_json_dump` of the
snapshot). -/
def progressContent (plan : Plan) : String := json_dumps_py (progressSnapshot plan)

/-!  The control loop (`_run_loop` in `daemon.py`), modelled as a step
function per iteration over an explicit state.  The on-disk artifacts the
loop touches are tracked per artifact (plan, active-task lock, last
result, progress snapshot); the summary file, which no claim observes, is
not tracked.  The agent subprocess is an oracle input: each iteration
consumes one scripted `AgentResp`. -/

/-- `_validate_plan` specialized to the structured `Plan` representation:
every shape and type check holds by construction, so only the status enum
checks remain. -/
def planValidS (p : Plan) : Bool :=
  p.objectives.all (fun o => objectiveStatusList.contains o.status) &&
  p.tasks.all (fun t => taskStatusList.contains t.status)

/-- `_validate_active_task` specialized to the structured `ActiveTask`. -/
def activeValidS (a : ActiveTask) : Bool := taskStatusList.contains a.task.status

/-- The configuration and store geometry the loop consumes. -/
structure LoopCtx where
  task_timeout_seconds : Int
  strict_schema_validation : Bool
  project_root : List String
  design_dir : List String
  state_dir : List String
deriving DecidableEq, Repr

/-- The loop-visible on-disk artifacts. -/
structure LoopDisk where
  plan : Option Plan
  activeTaskFile : Option ActiveTask
  lastResult : Option JValue
  progress : Option String

/-- Loop state: disk plus the in-memory retry tracker. -/
structure LoopState where
  disk : LoopDisk
  tracker : RetryTracker

/-- One scripted agent exchange: a timeout, a non-timeout `MCPError`, or a
parsed JSON-object reply with its drained stderr. -/
inductive AgentResp where
  | timeout
  | mcpFail
  | reply (payload : JValue) (stderrText : String)

/-- The distinct `StopExecution` messages of `_run_loop`. -/
inductive StopMsg where
  | activeTaskExists
  | mcpTimeout
  | codexBlocked
  | maxConsecutiveFailures
  | taskFailedTwice
  | unexpectedStatus (status : Option JValue)

/-- The non-`StopExecution` exception families `main` catches. -/
inductive HaltErr where
  | planner (e : PlannerErr)
  | state (e : StateErr)
  | policy (e : PolicyErr)
  | mcp

/-- Outcome of one loop iteration: continue, normal stop ("No pending
tasks available. Stopping."), `StopExecution`, a caught fatal error, or an
uncaught `TypeError` (iterating a non-iterable `files_changed`). -/
inductive StepOutcome where
  | next (st : LoopState)
  | finished (st : LoopState)
  | stopped (m : StopMsg) (st : LoopState)
  | halted (e : HaltErr) (st : LoopState)
  | crashed (st : LoopState)

/-- Python single-quote character, used by `repr`. -/
def squote : String := String.singleton (Char.ofNat 39)

mutual

/-- Python `repr` of a JSON-parsed value, for f-string interpolation of
containers (string escaping is not modelled; the statuses this program
interpolates are plain scalars). -/
def pyRepr : JValue → String
  | .null => "None"
  | .bool b => if b then "True" else "False"
  | .int n => toString n
  | .str s => squote ++ s ++ squote
  | .arr xs => "[" ++ pyReprItems xs ++ "]"
  | .obj fs => "\x7b" ++ pyReprFields fs ++ "\x7d"

/-- Comma-separated `repr` of list items. -/
def pyReprItems : List JValue → String
  | [] => ""
  | [x] => pyRepr x
  | x :: y :: xs => pyRepr x ++ ", " ++ pyReprItems (y :: xs)

/-- Comma-separated `repr` of dict items. -/
def pyReprFields : List (String × JValue) → String
  | [] => ""
  | [(k, v)] => squote ++ k ++ squote ++ ": " ++ pyRepr v
  | (k, v) :: g :: fs => squote ++ k ++ squote ++ ": " ++ pyRepr v ++ ", " ++ pyReprFields (g :: fs)

end

/-- Python `str` of `payload.get(\x22status\x22)` as an f-string interpolates
it: `None` for a missing key, the bare text for a string, `repr`-style
output for containers. -/
def pyStr : Option JValue → String
  | none => "None"
  | some (.str s) => s
  | some v => pyRepr v

/-- The literal `StopExecution` message of each halt site in `daemon.py`
(and the `MCPTimeoutError` text `str(exc)` forwards). -/
def msgText : StopMsg → String
  | .activeTaskExists => "ACTIVE_TASK.yaml exists; manual intervention required."
  | .mcpTimeout => "Timed out waiting for MCP response."
  | .codexBlocked => "Codex reported blocked."
  | .maxConsecutiveFailures => "Max consecutive failures reached."
  | .taskFailedTwice => "Task failed more than once."
  | .unexpectedStatus s => "Unexpected Codex status: " ++ pyStr s

/-- Python iteration over the `files_changed` value: lists yield their
elements, strings yield one-character strings, dicts yield their keys,
and scalars raise an uncaught `TypeError` (`none`). -/
def pyIterEntries : JValue → Option (List JValue)
  | .arr xs => some xs
  | .str s => some (s.data.map (fun c => .str (String.singleton c)))
  | .obj fs => some (fs.map (fun kv => .str kv.1))
  | _ => none

/-- `payload.get(k)` with no default. -/
def jGetOpt (v : JValue) (k : String) : Option JValue :=
  match v with
  | .obj fs => jLookup fs k
  | _ => none

/-- Python `payload.get(\x22status\x22) == s`: true exactly for an equal
string value. -/
def statusIs (v : Option JValue) (s : String) : Bool :=
  match v with
  | some (.str t) => t = s
  | _ => false

/-- `Planner.ensure_plan` as the loop sees it: materialize and persist the
minimal plan when the file is absent, otherwise load it (strict mode
validates on both the write and the read path). -/
def ensurePlanL (ctx : LoopCtx) (d : LoopDisk) : Except StateErr (Plan × LoopDisk) :=
  match d.plan with
  | none =>
    let p : Plan := { version := 1, objectives := [], tasks := [] }
    if ctx.strict_schema_validation && !(planValidS p) then .error (.validation "plan")
    else .ok (p, { d with plan := some p })
  | some p =>
    if ctx.strict_schema_validation && !(planValidS p) then .error (.validation "plan")
    else .ok (p, d)

/-- `_run_loop` lines 102-146: everything after the agent replied.  The
active-task lock is cleared first, the last result is persisted (strict
validation first), the policy enforcer runs, and only then the status
branch executes. -/
def afterReply (ctx : LoopCtx) (tracker : RetryTracker) (plan2 : Plan) (taskId : String)
    (d4 : LoopDisk) (payload : JValue) : StepOutcome :=
  let d5 := { d4 with activeTaskFile := none }
  match (if ctx.strict_schema_validation then validate_codex_result payload else none) with
  | some c => .halted (.state (.validation c)) { disk := d5, tracker := tracker }
  | none =>
    let d6 := { d5 with lastResult := some payload }
    match pyIterEntries (jGetD payload "files_changed" (.arr [])) with
    | none => .crashed { disk := d6, tracker := tracker }
    | some entries =>
      match assert_no_forbidden_changes entries ctx.project_root ctx.design_dir ctx.state_dir with
      | some v => .halted (.policy v) { disk := d6, tracker := tracker }
      | none =>
        let status := jGetOpt payload "status"
        if statusIs status "success" then
          match finalize_task plan2 taskId "done" with
          | .error e => .halted (.planner e) { disk := d6, tracker := tracker }
          | .ok plan3 =>
            let tracker2 := record_success tracker taskId
            if ctx.strict_schema_validation && !(planValidS plan3) then
              .halted (.state (.validation "plan")) { disk := d6, tracker := tracker2 }
            else
              .next
                { disk :=
                    { d6 with plan := some plan3, progress := some (progressContent plan3) },
                  tracker := tracker2 }
        else if statusIs status "blocked" then
          match finalize_task plan2 taskId "blocked" with
          | .error e => .halted (.planner e) { disk := d6, tracker := tracker }
          | .ok plan3 =>
            if ctx.strict_schema_validation && !(planValidS plan3) then
              .halted (.state (.validation "plan")) { disk := d6, tracker := tracker }
            else
              .stopped .codexBlocked
                { disk :=
                    { d6 with plan := some plan3, progress := some (progressContent plan3) },
                  tracker := tracker }
        else if statusIs status "failed" then
          let tracker2 := record_failure tracker taskId
          if too_many_consecutive_failures tracker2 then
            .stopped .maxConsecutiveFailures { disk := d6, tracker := tracker2 }
          else if can_retry tracker2 taskId then
            match reset_task_for_retry plan2 taskId with
            | .error e => .halted (.planner e) { disk := d6, tracker := tracker2 }
            | .ok plan3 =>
              if ctx.strict_schema_validation && !(planValidS plan3) then
                .halted (.state (.validation "plan")) { disk := d6, tracker := tracker2 }
              else
                .next
                  { disk :=
                      { d6 with plan := some plan3, progress := some (progressContent plan3) },
                    tracker := tracker2 }
          else
            match finalize_task plan2 taskId "failed" with
            | .error e => .halted (.planner e) { disk := d6, tracker := tracker2 }
            | .ok plan3 =>
              if ctx.strict_schema_validation && !(planValidS plan3) then
                .halted (.state (.validation "plan")) { disk := d6, tracker := tracker2 }
              else
                .stopped .taskFailedTwice
                  { disk :=
                      { d6 with plan := some plan3, progress := some (progressContent plan3) },
                    tracker := tracker2 }
        else .stopped (.unexpectedStatus status) { disk := d6, tracker := tracker }

/-- One iteration of `_run_loop`: the Active Task lock check, plan load,
task selection, activation (with its three persisted writes), the agent
exchange, and `afterReply`. -/
def stepIter (ctx : LoopCtx) (st : LoopState) (resp : AgentResp) : StepOutcome :=
  if st.disk.activeTaskFile.isSome then .stopped .activeTaskExists st
  else
    match ensurePlanL ctx st.disk with
    | .error e => .halted (.state e) st
    | .ok (plan, d1) =>
      match select_next_task plan with
      | .error e => .halted (.planner e) { st with disk := d1 }
      | .ok none => .finished { st with disk := d1 }
      | .ok (some task) =>
        match activate_task plan task.id ctx.task_timeout_seconds with
        | .error e => .halted (.planner e) { st with disk := d1 }
        | .ok (plan2, active) =>
          if ctx.strict_schema_validation && !(planValidS plan2) then
            .halted (.state (.validation "plan")) { st with disk := d1 }
          else
            let d3 :=
              { d1 with plan := some plan2, progress := some (progressContent plan2) }
            if ctx.strict_schema_validation && !(activeValidS active) then
              .halted (.state (.validation "active_task")) { st with disk := d3 }
            else
              let d4 := { d3 with activeTaskFile := some active }
              match resp with
              | .timeout => .stopped .mcpTimeout { st with disk := d4 }
              | .mcpFail => .halted .mcp { st with disk := d4 }
              | .reply payload _ => afterReply ctx st.tracker plan2 task.id d4 payload

/-- A whole run outcome: as `stepIter`, or the scripted responses ran out
while the loop wanted to continue. -/
inductive RunResult where
  | finished (st : LoopState)
  | stopped (m : StopMsg) (st : LoopState)
  | halted (e : HaltErr) (st : LoopState)
  | crashed (st : LoopState)
  | noMoreResponses (st : LoopState)

/-- Drive `_run_loop` over a scripted response list. -/
def runLoop (ctx : LoopCtx) : LoopState → List AgentResp → RunResult
  | st, [] => .noMoreResponses st
  | st, r :: rs =>
    match stepIter ctx st r with
    | .next st2 => runLoop ctx st2 rs
    | .finished st2 => .finished st2
    | .stopped m st2 => .stopped m st2
    | .halted e st2 => .halted e st2
    | .crashed st2 => .crashed st2

/-- The state carried by a step outcome. -/
def outState : StepOutcome → LoopState
  | .next st => st
  | .finished st => st
  | .stopped _ st => st
  | .halted _ st => st
  | .crashed st => st

/-- The stop message of a step outcome, if it is a `StopExecution`. -/
def stepMsg : StepOutcome → Option StopMsg
  | .stopped m _ => some m
  | _ => none

/-- The fatal error of a step outcome, if any. -/
def stepErrOf : StepOutcome → Option HaltErr
  | .halted e _ => some e
  | _ => none

/-- Whether a step outcome continues the loop. -/
def isNextStep : StepOutcome → Bool
  | .next _ => true
  | _ => false

/-- The state carried by a run result. -/
def runState : RunResult → LoopState
  | .finished st => st
  | .stopped _ st => st
  | .halted _ st => st
  | .crashed st => st
  | .noMoreResponses st => st

/-- The stop message of a run result, if it is a `StopExecution`. -/
def runMsg : RunResult → Option StopMsg
  | .stopped m _ => some m
  | _ => none

/-- Status of a task in the persisted plan of a loop state. -/
def planTaskStatus (st : LoopState) (taskId : String) : Option String :=
  match st.disk.plan with
  | some p => (find_task p taskId).map (fun t => t.status)
  | none => none

/-!  Theorems. -/

/-- Pointwise agreement of the source rollup with the spec rollup. -/
theorem rollupObjective_eq (tasks : List Task) (obj : Objective) :
    rollupObjective tasks obj =
      { obj with status := rollupSpec (tasks.filter (fun t => t.objective = obj.id)) obj.status } := by
  unfold rollupObjective rollupSpec
  by_cases h : tasks.filter (fun t => t.objective = obj.id) = []
  · simp [h]
  · cases hall : (tasks.filter (fun t => t.objective = obj.id)).all (fun t => t.status = "done") <;>
    cases hany : (tasks.filter (fun t => t.objective = obj.id)).any (fun t =>
        t.status = "active" || t.status = "done" || t.status = "failed" || t.status = "blocked") <;>
    simp [h, hall, hany, List.isEmpty_iff]

/-- `refresh_objective_statuses` rewrites the objectives by the source
rollup and keeps the tasks. -/
theorem refresh_objectives_eq (plan : Plan) :
    (refresh_objective_statuses plan).objectives =
      plan.objectives.map (rollupObjective plan.tasks) := rfl

/-- C4: after every planner mutation (`activate_task`, `finalize_task`,
`reset_task_for_retry`), each objective's status equals the spec rollup of
its related tasks in the mutated plan (an objective with no related tasks
keeps its prior status, which `rollupSpec` passes through). -/
theorem objective_rollup_after_mutation (m : Mutation) (plan : Plan) (taskId : String)
    (p2 : Plan) (h : applyMutation m plan taskId = .ok p2) :
    p2.objectives = plan.objectives.map (fun obj =>
      { obj with
        status := rollupSpec (p2.tasks.filter (fun t => t.objective = obj.id)) obj.status }) := by
  have key : ∀ ts : List Task,
      (plan.objectives.map (rollupObjective ts)) = plan.objectives.map (fun obj =>
        { obj with status := rollupSpec (ts.filter (fun t => t.objective = obj.id)) obj.status }) := by
    intro ts
    have hfun : rollupObjective ts = fun obj =>
        { obj with status := rollupSpec (ts.filter (fun t => t.objective = obj.id)) obj.status } :=
      funext (rollupObjective_eq ts)
    rw [hfun]
  cases m with
  | activate timeoutSeconds =>
    simp only [applyMutation, activate_task] at h
    cases hf : find_task plan taskId with
    | none => rw [hf] at h; simp [Except.map] at h
    | some t =>
      rw [hf] at h
      simp only [Except.map, Except.ok.injEq] at h
      subst h
      exact key _
  | finalizeWith status =>
    simp only [applyMutation, finalize_task] at h
    cases hf : find_task plan taskId with
    | none => rw [hf] at h; simp at h
    | some t =>
      rw [hf] at h
      simp only [Except.ok.injEq] at h
      subst h
      exact key _
  | reset =>
    simp only [applyMutation, reset_task_for_retry] at h
    cases hf : find_task plan taskId with
    | none => rw [hf] at h; simp at h
    | some t =>
      rw [hf] at h
      simp only [Except.ok.injEq] at h
      subst h
      exact key _

/-- One-objective one-task fixture for the rollup witness. -/
def planC4 : Plan :=
  { version := 1,
    objectives := [{ id := "o1", source := "s", status := "pending" }],
    tasks := [{ id := "t1", objective := "o1", derived_from := "d", status := "pending" }] }

/-- The fixture after activating `t1`: the objective rolls up to
`in_progress`. -/
def planC4out : Plan :=
  { version := 1,
    objectives := [{ id := "o1", source := "s", status := "in_progress" }],
    tasks := [{ id := "t1", objective := "o1", derived_from := "d", status := "active" }] }

/-- Witness for C4 at a concrete mutation. -/
theorem objective_rollup_after_mutation_witness :
    applyMutation (.activate 60) planC4 "t1" = .ok planC4out ∧
    planC4out.objectives = planC4.objectives.map (fun obj =>
      { obj with
        status := rollupSpec (planC4out.tasks.filter (fun t => t.objective = obj.id)) obj.status }) :=
  ⟨rfl, objective_rollup_after_mutation (.activate 60) planC4 "t1" planC4out rfl⟩

/-- Strings with different first characters differ. -/
theorem string_ne_of_head_ne (a b : String) (h : a.data.head? ≠ b.data.head?) : a ≠ b :=
  fun he => h (by rw [he])

/-- Serialized progress snapshots always open with a brace. -/
theorem progressContent_head (plan : Plan) :
    (progressContent plan).data.head? = some '\x7b' := by
  unfold progressContent json_dumps_py progressSnapshot jsonDumps
  rw [String.data_append, String.data_append]
  rfl

/-- C10: when the progress file is absent, `load_progress` returns the
literal default `objectives: \x7b\x7d` line, which is never the snapshot
text `write_progress` produces. -/
theorem load_progress_default (st : StoreModel) (d : DiskState)
    (h : fileAt d st.progress_path = none) :
    load_progress st d = DEFAULT_PROGRESS ∧
    DEFAULT_PROGRESS = "objectives: \x7b\x7d\n" ∧
    ∀ plan : Plan, progressContent plan ≠ DEFAULT_PROGRESS := by
  refine ⟨?_, rfl, ?_⟩
  · unfold load_progress
    rw [h]
  · intro plan
    apply string_ne_of_head_ne
    rw [progressContent_head]
    intro hcontra
    simp [DEFAULT_PROGRESS] at hcontra

/-- Empty disk with the default store layout, for the C10 witness. -/
def diskEmpty : DiskState := { files := [], dirs := [["proj", "ai"]] }

/-- Default store over the fixture project root. -/
def storeW : StoreModel := mkStateStore ["proj"] "ai" "design" none true

/-- Witness for C10 at a concrete store and plan. -/
theorem load_progress_default_witness :
    load_progress storeW diskEmpty = DEFAULT_PROGRESS ∧
    progressContent planC4 ≠ DEFAULT_PROGRESS :=
  ⟨(load_progress_default storeW diskEmpty rfl).1,
   (load_progress_default storeW diskEmpty rfl).2.2 planC4⟩

/-- C6: a state-store write to a read-only path (the config, goals or
sources file, or anything under the design directory) fails with the
read-only error, and a write to a path outside the writable set fails with
the plain state error; in both cases the guard fires before any bytes are
written, so the disk is unchanged. -/
theorem readonly_write_rejected (st : StoreModel) (d : DiskState) (p : List String)
    (content : String) (fields : List (String × JValue)) :
    ((st.read_only_paths.contains (normalizePath p) ||
        is_within (normalizePath p) st.design_resolved) = true →
      atomic_write_text st d p content = (d, some .readOnly) ∧
      atomic_write_json st d p (.obj fields) = (d, some .readOnly)) ∧
    (st.read_only_paths.contains (normalizePath p) = false →
     is_within (normalizePath p) st.design_resolved = false →
     st.writable_paths.contains (normalizePath p) = false →
      atomic_write_text st d p content = (d, some .unknownWrite) ∧
      atomic_write_json st d p (.obj fields) = (d, some .unknownWrite)) := by
  constructor
  · intro h
    have hw : ensure_writable_path st p = some .readOnly := by
      rcases Bool.or_eq_true_iff.mp h with h1 | h2
      · have h1m : normalizePath p ∈ st.read_only_paths := by simpa using h1
        simp [ensure_writable_path, h1m]
      · by_cases h1m : normalizePath p ∈ st.read_only_paths
        · simp [ensure_writable_path, h1m]
        · simp [ensure_writable_path, h1m, h2]
    constructor
    · unfold atomic_write_text
      rw [hw]
    · unfold atomic_write_json
      rw [hw]
  · intro h1 h2 h3
    have h1m : ¬ (normalizePath p ∈ st.read_only_paths) := by simpa using h1
    have h3m : ¬ (normalizePath p ∈ st.writable_paths) := by simpa using h3
    have hw : ensure_writable_path st p = some .unknownWrite := by
      simp [ensure_writable_path, h1m, h2, h3m]
    constructor
    · unfold atomic_write_text
      rw [hw]
    · unfold atomic_write_json
      rw [hw]

/-- Witness for C6: writing the goals file and an unknown file through the
default store leaves the disk unchanged with the claimed errors. -/
theorem readonly_write_rejected_witness :
    atomic_write_text storeW diskEmpty ["proj", "ai", "GOALS.md"] "x" =
      (diskEmpty, some .readOnly) ∧
    atomic_write_json storeW diskEmpty ["proj", "design", "notes.md"] (.obj []) =
      (diskEmpty, some .readOnly) ∧
    atomic_write_text storeW diskEmpty ["proj", "other.txt"] "x" =
      (diskEmpty, some .unknownWrite) :=
  ⟨((readonly_write_rejected storeW diskEmpty ["proj", "ai", "GOALS.md"] "x" []).1
      (by decide)).1,
   ((readonly_write_rejected storeW diskEmpty ["proj", "design", "notes.md"] "x" []).1
      (by decide)).2,
   ((readonly_write_rejected storeW diskEmpty ["proj", "other.txt"] "x" []).2
      (by decide) (by decide) (by decide)).1⟩

/-- C7: under strict schema validation each of the three validated store
writes rejects a schema-invalid payload with `StateValidation` before the
atomic write begins, leaving the disk unchanged. -/
theorem strict_invalid_write_rejected (st : StoreModel) (d : DiskState) (v : JValue)
    (hstrict : st.strict_schema_validation = true) :
    (∀ c, validate_plan v = some c →
      write_plan_store st d v = (d, some (.validation c))) ∧
    (∀ c, validate_active_task v = some c →
      write_active_task_store st d v = (d, some (.validation c))) ∧
    (∀ c, validate_codex_result v = some c →
      write_last_result_store st d v = (d, some (.validation c))) := by
  refine ⟨fun c hc => ?_, fun c hc => ?_, fun c hc => ?_⟩
  · unfold write_plan_store
    rw [hstrict, hc]
    simp
  · unfold write_active_task_store
    rw [hstrict, hc]
    simp
  · unfold write_last_result_store
    rw [hstrict, hc]
    simp

/-- Witness for C7: the empty object is rejected by all three writes. -/
theorem strict_invalid_write_rejected_witness :
    write_plan_store storeW diskEmpty (.obj []) = (diskEmpty, some (.validation "plan")) ∧
    write_active_task_store storeW diskEmpty (.obj []) =
      (diskEmpty, some (.validation "active_task")) ∧
    write_last_result_store storeW diskEmpty (.obj []) =
      (diskEmpty, some (.validation "codex_result")) :=
  ⟨(strict_invalid_write_rejected storeW diskEmpty (.obj []) rfl).1 "plan" rfl,
   (strict_invalid_write_rejected storeW diskEmpty (.obj []) rfl).2.1 "active_task" rfl,
   (strict_invalid_write_rejected storeW diskEmpty (.obj []) rfl).2.2 "codex_result" rfl⟩

/-- Whether a JSON value is a string (the `isinstance(entry, str)` test). -/
def isStrJ : JValue → Bool
  | .str _ => true
  | _ => false

/-- A non-string entry aborts the scan immediately, whatever came before. -/
theorem assertScan_nonString (rootR designR stateR : List String) (pre : List String)
    (v : JValue) (post : List JValue) (hv : isStrJ v = false) :
    ∀ acc, assertScan rootR designR stateR acc (pre.map JValue.str ++ v :: post) =
      some .nonString := by
  induction pre with
  | nil =>
    intro acc
    cases v <;> simp [assertScan] <;> simp [isStrJ] at hv
  | cons s rest ih =>
    intro acc
    simp only [List.map_cons, List.cons_append, assertScan]
    split
    · exact ih _
    · split
      · exact ih _
      · exact ih _

/-- The scan over all-string entries computes the accumulated forbidden
filter, sorted at the end. -/
theorem assertScan_strings (rootR designR stateR : List String) (ss : List String) :
    ∀ acc, assertScan rootR designR stateR acc (ss.map JValue.str) =
      (if (acc ++ ss.filter (forbiddenSpec rootR designR stateR)).isEmpty then none
       else some (.forbidden
         (sortStrings (acc ++ ss.filter (forbiddenSpec rootR designR stateR))))) := by
  induction ss with
  | nil => intro acc; simp [assertScan]
  | cons s rest ih =>
    intro acc
    cases hd : is_within (resolve_path rootR s) designR <;>
      cases hs : is_within (resolve_path rootR s) stateR <;>
      cases hr : is_within (resolve_path rootR s) rootR <;>
      simp [assertScan, hd, hs, hr, forbiddenSpec, ih, List.filter_cons,
        List.append_assoc, List.singleton_append]

/-- C8: the policy enforcer raises immediately on a non-string entry;
over string entries it raises exactly when the spec-side forbidden filter
is non-empty, with the offenders sorted; and any raised offender list is
sorted and a permutation of the forbidden entries. -/
theorem policy_enforcer_characterization (root design state : List String) :
    (∀ (pre : List String) (v : JValue) (post : List JValue), isStrJ v = false →
      assert_no_forbidden_changes (pre.map JValue.str ++ v :: post) root design state =
        some .nonString) ∧
    (∀ ss : List String,
      assert_no_forbidden_changes (ss.map JValue.str) root design state =
        (if (ss.filter (forbiddenSpec (normalizePath root) (normalizePath design)
              (normalizePath state))).isEmpty then none
         else some (.forbidden (sortStrings (ss.filter (forbiddenSpec (normalizePath root)
              (normalizePath design) (normalizePath state))))))) ∧
    (∀ (ss l : List String),
      assert_no_forbidden_changes (ss.map JValue.str) root design state =
        some (.forbidden l) →
      List.Sorted (fun a b => a ≤ b) l ∧
      l.Perm (ss.filter (forbiddenSpec (normalizePath root) (normalizePath design)
        (normalizePath state)))) := by
  refine ⟨?_, ?_, ?_⟩
  · intro pre v post hv
    unfold assert_no_forbidden_changes
    exact assertScan_nonString _ _ _ pre v post hv []
  · intro ss
    unfold assert_no_forbidden_changes
    simpa using assertScan_strings (normalizePath root) (normalizePath design)
      (normalizePath state) ss []
  · intro ss l h
    unfold assert_no_forbidden_changes at h
    rw [assertScan_strings] at h
    by_cases he :
        (ss.filter (forbiddenSpec (normalizePath root) (normalizePath design)
          (normalizePath state))).isEmpty = true
    · simp [he] at h
    · simp only [List.nil_append, he, if_neg, Bool.not_eq_true, if_false,
        Option.some.injEq, PolicyErr.forbidden.injEq] at h
      subst h
      exact ⟨List.sorted_insertionSort _ _, List.perm_insertionSort _ _⟩

/-- Witness for C8 at concrete entries. -/
theorem policy_enforcer_characterization_witness :
    assert_no_forbidden_changes [JValue.int 1] ["proj"] ["proj", "design"] ["proj", "ai"] =
      some .nonString ∧
    assert_no_forbidden_changes [JValue.str "design/spec.md", JValue.str "src/a.txt"]
        ["proj"] ["proj", "design"] ["proj", "ai"] =
      some (.forbidden ["design/spec.md"]) ∧
    List.Sorted (fun a b : String => a ≤ b) ["design/spec.md"] := by
  refine ⟨?_, ?_, ?_⟩
  · exact (policy_enforcer_characterization ["proj"] ["proj", "design"] ["proj", "ai"]).1
      [] (.int 1) [] rfl
  · exact ((policy_enforcer_characterization ["proj"] ["proj", "design"] ["proj", "ai"]).2.1
      ["design/spec.md", "src/a.txt"]).trans (by decide)
  · exact ((policy_enforcer_characterization ["proj"] ["proj", "design"] ["proj", "ai"]).2.2
      ["design/spec.md", "src/a.txt"] ["design/spec.md"]
      (((policy_enforcer_characterization ["proj"] ["proj", "design"] ["proj", "ai"]).2.1
        ["design/spec.md", "src/a.txt"]).trans (by decide))).1

/-!  Lemmas about the planner task map and dependency scan, feeding the
`select_next_task` characterization and the post-violation selection
theorem. -/

/-- Modelled from the spec (section 4.4 wording of the claim): a
dependency id names an existing task with status `done`. -/
def existsDone (tasks : List Task) (d : String) : Prop :=
  ∃ u ∈ tasks, u.id = d ∧ u.status = "done"

/-- Modelled from the spec: all `depends_on` entries of a task name
existing `done` tasks. -/
def allDepsDone (tasks : List Task) (t : Task) : Prop :=
  ∀ d ∈ t.depends_on, existsDone tasks d

/-- `lookupTask` distributes over append, first hit wins. -/
theorem lookupTask_append (a b : List (String × Task)) (k : String) :
    lookupTask (a ++ b) k =
      match lookupTask a k with
      | some v => some v
      | none => lookupTask b k := by
  induction a with
  | nil => simp [lookupTask]
  | cons kv rest ih =>
    by_cases hk : kv.1 = k
    · simp [lookupTask, hk]
    · simp only [List.cons_append]
      simp [lookupTask, hk] at ih ⊢
      exact ih

/-- `lookupTask` on a singleton. -/
theorem lookupTask_singleton (i : String) (t : Task) (k : String) :
    lookupTask [(i, t)] k = if i = k then some t else none := by
  by_cases h : i = k <;> simp [lookupTask, h]

/-- A successful `taskMapGo` returns the accumulated bindings in document
order. -/
theorem taskMapGo_ok_eq (ts : List Task) : ∀ acc m, taskMapGo acc ts = .ok m →
    m = acc ++ ts.map (fun t => (t.id, t)) := by
  induction ts with
  | nil =>
    intro acc m h
    simp [taskMapGo] at h
    simp [h.symm]
  | cons t rest ih =>
    intro acc m h
    simp only [taskMapGo] at h
    split at h
    · cases h
    · split at h
      · cases h
      · have := ih _ _ h
        rw [this]
        simp

/-- A successful `taskMapGo` certifies distinct non-empty ids unseen in
the accumulator. -/
theorem taskMapGo_ok_facts (ts : List Task) : ∀ acc m, taskMapGo acc ts = .ok m →
    (ts.map (fun t => t.id)).Nodup ∧ (∀ t ∈ ts, t.id ≠ "") ∧
    (∀ t ∈ ts, lookupTask acc t.id = none) := by
  induction ts with
  | nil => intro acc m h; simp
  | cons t rest ih =>
    intro acc m h
    simp only [taskMapGo] at h
    split at h
    · cases h
    · split at h
      · cases h
      · rename_i hne hdup
        obtain ⟨hnd, hne', hacc⟩ := ih _ _ h
        have hsplit : ∀ u ∈ rest, lookupTask acc u.id = none ∧ u.id ≠ t.id := by
          intro u hu
          have := hacc u hu
          rw [lookupTask_append] at this
          cases hl : lookupTask acc u.id with
          | some w => rw [hl] at this; cases this
          | none =>
            rw [hl] at this
            rw [lookupTask_singleton] at this
            refine ⟨rfl, fun hid => ?_⟩
            rw [← hid] at this
            simp at this
        refine ⟨?_, ?_, ?_⟩
        · rw [List.map_cons, List.nodup_cons]
          refine ⟨fun hmem => ?_, hnd⟩
          obtain ⟨u, hu, hid⟩ := List.mem_map.mp hmem
          exact (hsplit u hu).2 hid
        · intro u hu
          rcases List.mem_cons.mp hu with h1 | h1
          · subst h1; assumption
          · exact hne' u h1
        · intro u hu
          rcases List.mem_cons.mp hu with h1 | h1
          · subst h1
            simp at hdup
            simp [hdup]
          · exact (hsplit u h1).1

/-- `taskMapGo` errors are id errors only. -/
theorem taskMapGo_err_shape (ts : List Task) : ∀ acc e, taskMapGo acc ts = .error e →
    e = .badTaskId ∨ ∃ i, e = .duplicateTaskId i := by
  induction ts with
  | nil => intro acc e h; simp [taskMapGo] at h
  | cons t rest ih =>
    intro acc e h
    simp only [taskMapGo] at h
    split at h
    · cases h; exact Or.inl rfl
    · split at h
      · cases h; exact Or.inr ⟨t.id, rfl⟩
      · exact ih _ _ h

/-- Looking a key up in the id-indexed task list finds a member with that
id. -/
theorem lookupTask_map_mem (tasks : List Task) (d : String) (u : Task)
    (h : lookupTask (tasks.map (fun t => (t.id, t))) d = some u) :
    u ∈ tasks ∧ u.id = d := by
  induction tasks with
  | nil => simp [lookupTask] at h
  | cons t rest ih =>
    by_cases hd : t.id = d
    · simp [lookupTask, hd] at h
      subst h
      exact ⟨List.mem_cons_self t rest, hd⟩
    · simp only [List.map_cons] at h
      simp [lookupTask, hd] at h ih
      obtain ⟨h1, h2⟩ := ih h
      exact ⟨List.mem_cons_of_mem t h1, h2⟩

/-- A key is absent from the id-indexed task list exactly when no task
carries it. -/
theorem lookupTask_map_none (tasks : List Task) (d : String) :
    lookupTask (tasks.map (fun t => (t.id, t))) d = none ↔ ∀ u ∈ tasks, u.id ≠ d := by
  induction tasks with
  | nil => simp [lookupTask]
  | cons t rest ih =>
    simp only [List.map_cons]
    by_cases hd : t.id = d
    · constructor
      · intro h
        rw [show lookupTask ((t.id, t) :: rest.map (fun t => (t.id, t))) d = some t from by
          simp [lookupTask, hd]] at h
        cases h
      · intro h
        exact absurd hd (h t (List.mem_cons_self t rest))
    · have hstep : lookupTask ((t.id, t) :: rest.map (fun t => (t.id, t))) d =
          lookupTask (rest.map (fun t => (t.id, t))) d := by
        simp [lookupTask, hd]
      rw [hstep, ih]
      constructor
      · intro h u hu
        rcases List.mem_cons.mp hu with h1 | h1
        · subst h1; exact hd
        · exact h u h1
      · intro h u hu
        exact h u (List.mem_cons_of_mem t hu)

/-- With distinct ids, looking up the id of a member finds that member. -/
theorem lookupTask_map_of_mem (tasks : List Task) (u : Task) (d : String)
    (hnd : (tasks.map (fun t => t.id)).Nodup) (hu : u ∈ tasks) (hid : u.id = d) :
    lookupTask (tasks.map (fun t => (t.id, t))) d = some u := by
  induction tasks with
  | nil => cases hu
  | cons t rest ih =>
    simp only [List.map_cons, List.nodup_cons] at hnd
    rcases List.mem_cons.mp hu with h1 | h1
    · subst h1
      simp [lookupTask, hid]
    · have htd : t.id ≠ d := by
        intro he
        exact hnd.1 (List.mem_map.mpr ⟨u, h1, by rw [hid, he]⟩)
      have hstep : lookupTask ((t.id, t) :: rest.map (fun t => (t.id, t))) d =
          lookupTask (rest.map (fun t => (t.id, t))) d := by
        simp [lookupTask, htd]
      simp only [List.map_cons]
      rw [hstep]
      exact ih hnd.2 h1

/-- A dependency walk that returns `True` certifies every dependency
`done` in the map. -/
theorem depsSat_ok_true (m : List (String × Task)) (deps : List String)
    (h : dependencies_satisfied deps m = .ok true) :
    ∀ d ∈ deps, ∃ u, lookupTask m d = some u ∧ u.status = "done" := by
  induction deps with
  | nil => simp
  | cons dep rest ih =>
    intro d hd
    simp only [dependencies_satisfied] at h
    cases hl : lookupTask m dep with
    | none => rw [hl] at h; cases h
    | some u =>
      rw [hl] at h
      have h2 : (if u.status ≠ "done" then (Except.ok false : Except PlannerErr Bool)
          else dependencies_satisfied rest m) = .ok true := h
      by_cases hs : u.status = "done"
      · rw [if_neg (by simpa using hs)] at h2
        rcases List.mem_cons.mp hd with h1 | h1
        · subst h1; exact ⟨u, hl, hs⟩
        · exact ih h2 d h1
      · rw [if_pos (by simpa using hs)] at h2
        cases h2

/-- A dependency walk that returns `False` found a first existing not-yet
`done` dependency, after a prefix of `done` ones. -/
theorem depsSat_ok_false (m : List (String × Task)) (deps : List String)
    (h : dependencies_satisfied deps m = .ok false) :
    ∃ pre d suf, deps = pre ++ d :: suf ∧
      (∀ p ∈ pre, ∃ u, lookupTask m p = some u ∧ u.status = "done") ∧
      (∃ u, lookupTask m d = some u ∧ u.status ≠ "done") := by
  induction deps with
  | nil => simp [dependencies_satisfied] at h
  | cons dep rest ih =>
    simp only [dependencies_satisfied] at h
    cases hl : lookupTask m dep with
    | none => rw [hl] at h; cases h
    | some u =>
      rw [hl] at h
      have h2 : (if u.status ≠ "done" then (Except.ok false : Except PlannerErr Bool)
          else dependencies_satisfied rest m) = .ok false := h
      by_cases hs : u.status = "done"
      · rw [if_neg (by simpa using hs)] at h2
        obtain ⟨pre, d, suf, heq, hpre, hwit⟩ := ih h2
        refine ⟨dep :: pre, d, suf, by rw [heq, List.cons_append], ?_, hwit⟩
        intro p hp
        rcases List.mem_cons.mp hp with h1 | h1
        · subst h1; exact ⟨u, hl, hs⟩
        · exact hpre p h1
      · exact ⟨[], dep, rest, rfl, by simp, u, hl, hs⟩

/-- A dependency walk that raises found a first missing dependency, after
a prefix of `done` ones; the error carries that dependency. -/
theorem depsSat_err (m : List (String × Task)) (deps : List String) (e : PlannerErr)
    (h : dependencies_satisfied deps m = .error e) :
    ∃ d pre suf, e = .dependencyNotFound d ∧ deps = pre ++ d :: suf ∧
      (∀ p ∈ pre, ∃ u, lookupTask m p = some u ∧ u.status = "done") ∧
      lookupTask m d = none := by
  induction deps with
  | nil => simp [dependencies_satisfied] at h
  | cons dep rest ih =>
    simp only [dependencies_satisfied] at h
    cases hl : lookupTask m dep with
    | none =>
      rw [hl] at h
      cases h
      exact ⟨dep, [], rest, rfl, rfl, by simp, hl⟩
    | some u =>
      rw [hl] at h
      have h2 : (if u.status ≠ "done" then (Except.ok false : Except PlannerErr Bool)
          else dependencies_satisfied rest m) = .error e := h
      by_cases hs : u.status = "done"
      · rw [if_neg (by simpa using hs)] at h2
        obtain ⟨d, pre, suf, he, heq, hpre, hmiss⟩ := ih h2
        refine ⟨d, dep :: pre, suf, he, by rw [heq, List.cons_append], ?_, hmiss⟩
        intro p hp
        rcases List.mem_cons.mp hp with h1 | h1
        · subst h1; exact ⟨u, hl, hs⟩
        · exact hpre p h1
      · rw [if_pos (by simpa using hs)] at h2
        cases h2

/-- A successful scan returning a task decomposes the list at that task:
the task is `pending` with satisfied dependencies, every earlier task is
non-`active` and, when `pending`, has an unsatisfied dependency walk. -/
theorem selectScan_ok_some (m : List (String × Task)) (ts : List Task) (t : Task)
    (h : selectScan m ts = .ok (some t)) :
    ∃ pre suf, ts = pre ++ t :: suf ∧ t.status = "pending" ∧
      dependencies_satisfied t.depends_on m = .ok true ∧
      ∀ u ∈ pre, u.status ≠ "active" ∧
        (u.status = "pending" → dependencies_satisfied u.depends_on m = .ok false) := by
  induction ts with
  | nil => simp [selectScan] at h
  | cons u rest ih =>
    simp only [selectScan] at h
    split at h
    · cases h
    · rename_i hact
      split at h
      · rename_i hpend
        obtain ⟨pre, suf, heq, hp, hds, hpre⟩ := ih h
        refine ⟨u :: pre, suf, by rw [heq, List.cons_append], hp, hds, ?_⟩
        intro w hw
        rcases List.mem_cons.mp hw with h1 | h1
        · subst h1
          exact ⟨hact, fun hpw => absurd hpw hpend⟩
        · exact hpre w h1
      · rename_i hpend
        split at h
        · cases h
        · rename_i hds
          cases h
          exact ⟨[], rest, rfl, by simpa using hpend, hds, by simp⟩
        · rename_i hds
          obtain ⟨pre, suf, heq, hp, hds2, hpre⟩ := ih h
          refine ⟨u :: pre, suf, by rw [heq, List.cons_append], hp, hds2, ?_⟩
          intro w hw
          rcases List.mem_cons.mp hw with h1 | h1
          · subst h1
            exact ⟨hact, fun _ => hds⟩
          · exact hpre w h1

/-- A scan returning the absent sentinel skipped every task: none is
`active`, and every `pending` one has an unsatisfied dependency walk. -/
theorem selectScan_ok_none (m : List (String × Task)) (ts : List Task)
    (h : selectScan m ts = .ok none) :
    ∀ u ∈ ts, u.status ≠ "active" ∧
      (u.status = "pending" → dependencies_satisfied u.depends_on m = .ok false) := by
  induction ts with
  | nil => simp
  | cons u rest ih =>
    simp only [selectScan] at h
    split at h
    · cases h
    · rename_i hact
      split at h
      · rename_i hpend
        intro w hw
        rcases List.mem_cons.mp hw with h1 | h1
        · subst h1; exact ⟨hact, fun hpw => absurd hpw hpend⟩
        · exact ih h w h1
      · rename_i hpend
        split at h
        · cases h
        · cases h
        · rename_i hds
          intro w hw
          rcases List.mem_cons.mp hw with h1 | h1
          · subst h1; exact ⟨hact, fun _ => hds⟩
          · exact ih h w h1

/-- The active-plan error comes from a scanned `active` task. -/
theorem selectScan_err_active (m : List (String × Task)) (ts : List Task)
    (h : selectScan m ts = .error .activeWithoutContext) :
    ∃ u ∈ ts, u.status = "active" := by
  induction ts with
  | nil => simp [selectScan] at h
  | cons u rest ih =>
    simp only [selectScan] at h
    split at h
    · rename_i hact
      exact ⟨u, List.mem_cons_self u rest, hact⟩
    · split at h
      · obtain ⟨w, hw, hs⟩ := ih h
        exact ⟨w, List.mem_cons_of_mem u hw, hs⟩
      · split at h
        · rename_i e hds
          cases h
          obtain ⟨d, pre, suf, he, _⟩ := depsSat_err m _ _ hds
          cases he
        · cases h
        · obtain ⟨w, hw, hs⟩ := ih h
          exact ⟨w, List.mem_cons_of_mem u hw, hs⟩

/-- The missing-dependency error comes from a scanned `pending` task
whose dependency walk raised it. -/
theorem selectScan_err_dep (m : List (String × Task)) (ts : List Task) (d : String)
    (h : selectScan m ts = .error (.dependencyNotFound d)) :
    ∃ u ∈ ts, u.status = "pending" ∧
      dependencies_satisfied u.depends_on m = .error (.dependencyNotFound d) := by
  induction ts with
  | nil => simp [selectScan] at h
  | cons u rest ih =>
    simp only [selectScan] at h
    split at h
    · cases h
    · rename_i hact
      split at h
      · obtain ⟨w, hw, hs, hds⟩ := ih h
        exact ⟨w, List.mem_cons_of_mem u hw, hs, hds⟩
      · rename_i hpend
        split at h
        · rename_i e hds
          cases h
          exact ⟨u, List.mem_cons_self u rest, by simpa using hpend, hds⟩
        · cases h
        · obtain ⟨w, hw, hs, hds⟩ := ih h
          exact ⟨w, List.mem_cons_of_mem u hw, hs, hds⟩

/-- Plan whose pending task `t` has a missing dependency `zz` listed after
the not-yet-done dependency `a`. -/
def planC5 : Plan :=
  { version := 1, objectives := [],
    tasks :=
      [{ id := "a", objective := "o", derived_from := "d", status := "failed" },
       { id := "t", objective := "o", derived_from := "d", status := "pending",
         depends_on := ["a", "zz"] }] }

/-- C5 counterexample: a scanned pending task has a dependency id that
exists nowhere in the plan, yet `select_next_task` returns the absent
sentinel instead of raising `PlannerError` — the not-yet-done dependency
`a` is reached first and the task is skipped. -/
theorem select_missing_dep_not_error :
    select_next_task planC5 = .ok none ∧
    ∃ t ∈ planC5.tasks, t.status = "pending" ∧ ∃ d ∈ t.depends_on,
      ∀ u ∈ planC5.tasks, u.id ≠ d :=
  ⟨rfl, by decide⟩

/-- Converse of `taskMapGo_ok_facts`: distinct non-empty unseen ids build
the map successfully. -/
theorem taskMapGo_ok_of (ts : List Task) : ∀ acc,
    (ts.map (fun t => t.id)).Nodup → (∀ t ∈ ts, t.id ≠ "") →
    (∀ t ∈ ts, lookupTask acc t.id = none) →
    taskMapGo acc ts = .ok (acc ++ ts.map (fun t => (t.id, t))) := by
  induction ts with
  | nil => intro acc _ _ _; simp [taskMapGo]
  | cons t rest ih =>
    intro acc hnd hne hacc
    simp only [List.map_cons, List.nodup_cons] at hnd
    have h1 : ¬ (t.id = "") := hne t (List.mem_cons_self t rest)
    have h2 : lookupTask acc t.id = none := hacc t (List.mem_cons_self t rest)
    simp only [taskMapGo, h1, if_false, h2, Option.isSome_none, Bool.false_eq_true,
      if_false, if_neg]
    have hrec := ih (acc ++ [(t.id, t)]) hnd.2
      (fun u hu => hne u (List.mem_cons_of_mem t hu))
      (fun u hu => by
        rw [lookupTask_append, hacc u (List.mem_cons_of_mem t hu), lookupTask_singleton]
        rw [if_neg]
        intro he
        exact hnd.1 (List.mem_map.mpr ⟨u, hu, he.symm⟩))
    rw [hrec]
    simp

/-- Modelled from the spec (the amended 4.4 claim wording): a pending
task is blocked when its dependency walk, taken in order, reaches an
existing not-yet-`done` id after a prefix of existing `done` ids. -/
def depsBlockedSpec (tasks : List Task) (t : Task) : Prop :=
  ∃ pre d suf, t.depends_on = pre ++ d :: suf ∧ (∀ p ∈ pre, existsDone tasks p) ∧
    ∃ u ∈ tasks, u.id = d ∧ u.status ≠ "done"

/-- Modelled from the spec: a pending task reaches the missing id `d`
with every earlier dependency existing and `done`. -/
def depsMissingSpec (tasks : List Task) (t : Task) (d : String) : Prop :=
  ∃ pre suf, t.depends_on = pre ++ d :: suf ∧ (∀ p ∈ pre, existsDone tasks p) ∧
    ∀ u ∈ tasks, u.id ≠ d

/-- Modelled from the spec: the scan passes over a task without
returning and without raising — it is not `active`, and when `pending`
its walk is blocked by an existing not-yet-`done` dependency. -/
def scanSkips (tasks : List Task) (u : Task) : Prop :=
  u.status ≠ "active" ∧ (u.status = "pending" → depsBlockedSpec tasks u)

/-- A prefix of existing `done` dependencies is walked through. -/
theorem depsSat_through_done_front (tasks : List Task)
    (hnd : (tasks.map (fun u => u.id)).Nodup) (pre rest : List String)
    (hpre : ∀ p ∈ pre, existsDone tasks p) :
    dependencies_satisfied (pre ++ rest) (tasks.map (fun u => (u.id, u))) =
      dependencies_satisfied rest (tasks.map (fun u => (u.id, u))) := by
  induction pre with
  | nil => rfl
  | cons p pre2 ih =>
    obtain ⟨w, hw, hwid, hwdone⟩ := hpre p (List.mem_cons_self p pre2)
    simp only [List.cons_append, dependencies_satisfied]
    rw [lookupTask_map_of_mem tasks w p hnd hw hwid]
    show (if w.status ≠ "done" then (Except.ok false : Except PlannerErr Bool)
        else dependencies_satisfied (pre2 ++ rest) (tasks.map (fun u => (u.id, u)))) =
      dependencies_satisfied rest (tasks.map (fun u => (u.id, u)))
    rw [if_neg (by simpa using hwdone)]
    exact ih (fun q hq => hpre q (List.mem_cons_of_mem p hq))

/-- When every dependency exists and is `done`, the walk returns `True`. -/
theorem depsSat_true_of_all (tasks : List Task)
    (hnd : (tasks.map (fun u => u.id)).Nodup) (deps : List String)
    (h : ∀ d ∈ deps, existsDone tasks d) :
    dependencies_satisfied deps (tasks.map (fun u => (u.id, u))) = .ok true := by
  have h1 := depsSat_through_done_front tasks hnd deps [] h
  rw [List.append_nil] at h1
  rw [h1]
  rfl

/-- A blocked decomposition makes the walk return `False`. -/
theorem depsSat_false_of_decomp (tasks : List Task)
    (hnd : (tasks.map (fun u => u.id)).Nodup) (pre : List String) (d : String)
    (suf : List String) (hpre : ∀ p ∈ pre, existsDone tasks p)
    (hex : ∃ u ∈ tasks, u.id = d ∧ u.status ≠ "done") :
    dependencies_satisfied (pre ++ d :: suf) (tasks.map (fun u => (u.id, u))) =
      .ok false := by
  rw [depsSat_through_done_front tasks hnd pre (d :: suf) hpre]
  obtain ⟨u, hu, hid, hnotdone⟩ := hex
  simp only [dependencies_satisfied]
  rw [lookupTask_map_of_mem tasks u d hnd hu hid]
  show (if u.status ≠ "done" then (Except.ok false : Except PlannerErr Bool)
      else dependencies_satisfied suf (tasks.map (fun w => (w.id, w)))) = .ok false
  rw [if_pos (by simpa using hnotdone)]

/-- A missing id after a `done` prefix makes the walk raise it. -/
theorem depsSat_err_of_decomp (tasks : List Task)
    (hnd : (tasks.map (fun u => u.id)).Nodup) (pre : List String) (d : String)
    (suf : List String) (hpre : ∀ p ∈ pre, existsDone tasks p)
    (hmiss : ∀ u ∈ tasks, u.id ≠ d) :
    dependencies_satisfied (pre ++ d :: suf) (tasks.map (fun u => (u.id, u))) =
      .error (.dependencyNotFound d) := by
  rw [depsSat_through_done_front tasks hnd pre (d :: suf) hpre]
  simp only [dependencies_satisfied]
  rw [(lookupTask_map_none tasks d).mpr hmiss]

/-- A `False` walk yields a blocked decomposition in spec vocabulary. -/
theorem blockedSpec_of_depsSat_false (tasks : List Task) (deps : List String)
    (h : dependencies_satisfied deps (tasks.map (fun u => (u.id, u))) = .ok false) :
    ∃ pre d suf, deps = pre ++ d :: suf ∧ (∀ p ∈ pre, existsDone tasks p) ∧
      ∃ u ∈ tasks, u.id = d ∧ u.status ≠ "done" := by
  obtain ⟨pre, d, suf, heq, hpre, u, hl, hnd⟩ := depsSat_ok_false _ _ h
  refine ⟨pre, d, suf, heq, ?_, ?_⟩
  · intro p hp
    obtain ⟨w, hlw, hwdone⟩ := hpre p hp
    obtain ⟨hmem, hid⟩ := lookupTask_map_mem _ _ _ hlw
    exact ⟨w, hmem, hid, hwdone⟩
  · obtain ⟨hmem, hid⟩ := lookupTask_map_mem _ _ _ hl
    exact ⟨u, hmem, hid, hnd⟩

/-- With distinct ids, a `False` walk refutes all-dependencies-`done`. -/
theorem not_allDone_of_depsSat_false (tasks : List Task) (deps : List String)
    (hnd : (tasks.map (fun u => u.id)).Nodup)
    (h : dependencies_satisfied deps (tasks.map (fun u => (u.id, u))) = .ok false) :
    ¬ ∀ d ∈ deps, existsDone tasks d := by
  intro hall
  obtain ⟨pre, d, suf, heq, _, u, hl, hnotdone⟩ := depsSat_ok_false _ _ h
  have hd : d ∈ deps := by
    rw [heq]; exact List.mem_append_right _ (List.mem_cons_self _ _)
  obtain ⟨w, hw, hwid, hwdone⟩ := hall d hd
  have hlw : lookupTask (tasks.map (fun u => (u.id, u))) d = some w :=
    lookupTask_map_of_mem _ _ _ hnd hw hwid
  rw [hl] at hlw
  injection hlw with huw
  rw [huw] at hnotdone
  exact hnotdone hwdone

/-- The scan walks past any prefix of skippable tasks. -/
theorem selectScan_skips_front (m : List (String × Task)) (pre rest : List Task)
    (hpre : ∀ u ∈ pre, u.status ≠ "active" ∧
      (u.status = "pending" → dependencies_satisfied u.depends_on m = .ok false)) :
    selectScan m (pre ++ rest) = selectScan m rest := by
  induction pre with
  | nil => rfl
  | cons u pre2 ih =>
    have hu := hpre u (List.mem_cons_self u pre2)
    simp only [List.cons_append, selectScan]
    rw [if_neg hu.1]
    by_cases hp : u.status = "pending"
    · rw [if_neg (by simpa using hp), hu.2 hp]
      exact ih (fun w hw => hpre w (List.mem_cons_of_mem u hw))
    · rw [if_pos (by simpa using hp)]
      exact ih (fun w hw => hpre w (List.mem_cons_of_mem u hw))

/-- C5 (amended), characterization of `select_next_task` in both
directions: (1) a returned task is `pending` with every dependency
existing and `done`, and it is the first such in document order — each
earlier task is skipped (non-`active`; when `pending`, blocked by an
existing not-yet-`done` dependency reached first) and in particular not
eligible; (2) the absent sentinel certifies no task is `active` and
every pending task not all-`done`; (3) the active error certifies an
`active` task; (4) the missing-dependency error certifies a pending task
whose walk reached the missing id after a `done` prefix; and forward,
for well-formed ids: (5) past a skipped prefix, a scanned `active` task
raises, a scanned eligible pending task is returned, and a scanned
pending task whose walk reaches a missing id raises that id; (6) when
every task is skipped, the absent sentinel is returned. -/
theorem select_next_task_characterization (plan : Plan) :
    (∀ t, select_next_task plan = .ok (some t) →
      ∃ pre suf, plan.tasks = pre ++ t :: suf ∧ t.status = "pending" ∧
        allDepsDone plan.tasks t ∧
        ∀ u ∈ pre, scanSkips plan.tasks u ∧
          ¬ (u.status = "pending" ∧ allDepsDone plan.tasks u)) ∧
    (select_next_task plan = .ok none →
      ∀ t ∈ plan.tasks, t.status ≠ "active" ∧
        (t.status = "pending" → ¬ allDepsDone plan.tasks t)) ∧
    (select_next_task plan = .error .activeWithoutContext →
      ∃ t ∈ plan.tasks, t.status = "active") ∧
    (∀ d, select_next_task plan = .error (.dependencyNotFound d) →
      ∃ t ∈ plan.tasks, t.status = "pending" ∧
        (∃ pre suf, t.depends_on = pre ++ d :: suf ∧ ∀ p ∈ pre, existsDone plan.tasks p) ∧
        ¬ ∃ u ∈ plan.tasks, u.id = d) ∧
    (∀ pre t suf, plan.tasks = pre ++ t :: suf →
      (∀ u ∈ pre, scanSkips plan.tasks u) →
      (∀ u ∈ plan.tasks, u.id ≠ "") →
      (plan.tasks.map (fun u => u.id)).Nodup →
        (t.status = "active" → select_next_task plan = .error .activeWithoutContext) ∧
        (t.status = "pending" → allDepsDone plan.tasks t →
          select_next_task plan = .ok (some t)) ∧
        (∀ d, t.status = "pending" → depsMissingSpec plan.tasks t d →
          select_next_task plan = .error (.dependencyNotFound d))) ∧
    ((∀ u ∈ plan.tasks, u.id ≠ "") → (plan.tasks.map (fun u => u.id)).Nodup →
      (∀ u ∈ plan.tasks, scanSkips plan.tasks u) → select_next_task plan = .ok none) := by
  refine ⟨?_, ?_, ?_, ?_, ?_, ?_⟩
  · unfold select_next_task
    cases hm : task_map plan.tasks with
    | error e => intro t h; cases h
    | ok m =>
      intro t h
      have hmeq : m = plan.tasks.map (fun t => (t.id, t)) := by
        simpa using taskMapGo_ok_eq plan.tasks [] m hm
      have hfacts := taskMapGo_ok_facts plan.tasks [] m hm
      obtain ⟨pre, suf, heq, hp, hds, hpre⟩ := selectScan_ok_some m plan.tasks t h
      refine ⟨pre, suf, heq, hp, ?_, ?_⟩
      · intro d hd
        obtain ⟨u, hl, hs⟩ := depsSat_ok_true m _ hds d hd
        rw [hmeq] at hl
        obtain ⟨hmem, hid⟩ := lookupTask_map_mem _ _ _ hl
        exact ⟨u, hmem, hid, hs⟩
      · intro u hu
        have hds0 := (hpre u hu).2
        constructor
        · refine ⟨(hpre u hu).1, fun hpend => ?_⟩
          have hfalse := hds0 hpend
          rw [hmeq] at hfalse
          exact blockedSpec_of_depsSat_false plan.tasks u.depends_on hfalse
        · rintro ⟨hpend, hall⟩
          have hfalse := hds0 hpend
          rw [hmeq] at hfalse
          exact not_allDone_of_depsSat_false plan.tasks u.depends_on hfacts.1 hfalse hall
  · unfold select_next_task
    cases hm : task_map plan.tasks with
    | error e => intro h; cases h
    | ok m =>
      intro h t ht
      have hmeq : m = plan.tasks.map (fun t => (t.id, t)) := by
        simpa using taskMapGo_ok_eq plan.tasks [] m hm
      have hfacts := taskMapGo_ok_facts plan.tasks [] m hm
      obtain ⟨hact, hpend⟩ := selectScan_ok_none m plan.tasks h t ht
      refine ⟨hact, fun hp => ?_⟩
      have hfalse := hpend hp
      rw [hmeq] at hfalse
      exact not_allDone_of_depsSat_false plan.tasks t.depends_on hfacts.1 hfalse
  · unfold select_next_task
    cases hm : task_map plan.tasks with
    | error e =>
      intro h
      rcases taskMapGo_err_shape plan.tasks [] e hm with h1 | ⟨i, h1⟩ <;>
        (subst h1; cases h)
    | ok m =>
      intro h
      exact selectScan_err_active m plan.tasks h
  · unfold select_next_task
    cases hm : task_map plan.tasks with
    | error e =>
      intro d h
      rcases taskMapGo_err_shape plan.tasks [] e hm with h1 | ⟨i, h1⟩ <;>
        (subst h1; cases h)
    | ok m =>
      intro d h
      have hmeq : m = plan.tasks.map (fun t => (t.id, t)) := by
        simpa using taskMapGo_ok_eq plan.tasks [] m hm
      obtain ⟨t, ht, hp, hds⟩ := selectScan_err_dep m plan.tasks d h
      obtain ⟨d2, pre, suf, he, heq, hpre, hmiss⟩ := depsSat_err m _ _ hds
      have hd2 : d2 = d := by injection he with h1; exact h1.symm
      subst hd2
      refine ⟨t, ht, hp, ⟨pre, suf, heq, ?_⟩, ?_⟩
      · intro p hpmem
        obtain ⟨u, hl, hs⟩ := hpre p hpmem
        rw [hmeq] at hl
        obtain ⟨hmem, hid⟩ := lookupTask_map_mem _ _ _ hl
        exact ⟨u, hmem, hid, hs⟩
      · rw [hmeq] at hmiss
        rintro ⟨u, hu, hid⟩
        exact ((lookupTask_map_none _ _).mp hmiss) u hu hid
  · intro pre t suf heq hpre hne hnd
    have hne2 : ∀ u ∈ pre ++ t :: suf, u.id ≠ "" := by rw [← heq]; exact hne
    have hnd2 : ((pre ++ t :: suf).map (fun u => u.id)).Nodup := by
      rw [← heq]; exact hnd
    have hm : task_map plan.tasks =
        .ok ((pre ++ t :: suf).map (fun u => (u.id, u))) := by
      rw [heq]
      unfold task_map
      rw [taskMapGo_ok_of (pre ++ t :: suf) [] hnd2 hne2 (fun u _ => rfl)]
      simp
    have hpre2 := hpre
    rw [heq] at hpre2
    have hskip : ∀ u ∈ pre, u.status ≠ "active" ∧
        (u.status = "pending" →
          dependencies_satisfied u.depends_on
            ((pre ++ t :: suf).map (fun w => (w.id, w))) = .ok false) := by
      intro u hu
      refine ⟨(hpre2 u hu).1, fun hp => ?_⟩
      obtain ⟨pre3, d, suf3, hdeq, hdone3, hex⟩ := (hpre2 u hu).2 hp
      rw [hdeq]
      exact depsSat_false_of_decomp (pre ++ t :: suf) hnd2 pre3 d suf3 hdone3 hex
    refine ⟨?_, ?_, ?_⟩
    · intro hact
      unfold select_next_task
      simp only [hm]
      rw [heq, selectScan_skips_front _ pre _ hskip]
      simp only [selectScan]
      rw [if_pos hact]
    · intro hpend hall
      have hall2 : ∀ d ∈ t.depends_on, existsDone (pre ++ t :: suf) d := by
        rw [← heq]; exact hall
      unfold select_next_task
      simp only [hm]
      rw [heq, selectScan_skips_front _ pre _ hskip]
      simp only [selectScan]
      rw [if_neg (by rw [hpend]; decide), if_neg (by simp [hpend]),
        depsSat_true_of_all (pre ++ t :: suf) hnd2 t.depends_on hall2]
    · intro d hpend hmissing
      obtain ⟨pre4, suf4, hdeq, hdone4, hmiss⟩ := hmissing
      have hdone4b : ∀ p ∈ pre4, existsDone (pre ++ t :: suf) p := by
        rw [← heq]; exact hdone4
      have hmissb : ∀ u ∈ pre ++ t :: suf, u.id ≠ d := by rw [← heq]; exact hmiss
      unfold select_next_task
      simp only [hm]
      rw [heq, selectScan_skips_front _ pre _ hskip]
      simp only [selectScan]
      rw [if_neg (by rw [hpend]; decide), if_neg (by simp [hpend]), hdeq,
        depsSat_err_of_decomp (pre ++ t :: suf) hnd2 pre4 d suf4 hdone4b hmissb]
  · intro hne hnd hall
    have hm : task_map plan.tasks = .ok (plan.tasks.map (fun u => (u.id, u))) := by
      unfold task_map
      rw [taskMapGo_ok_of plan.tasks [] hnd hne (fun u _ => rfl)]
      simp
    have hskip : ∀ u ∈ plan.tasks, u.status ≠ "active" ∧
        (u.status = "pending" →
          dependencies_satisfied u.depends_on
            (plan.tasks.map (fun w => (w.id, w))) = .ok false) := by
      intro u hu
      refine ⟨(hall u hu).1, fun hp => ?_⟩
      obtain ⟨pre3, d, suf3, hdeq, hdone3, hex⟩ := (hall u hu).2 hp
      rw [hdeq]
      exact depsSat_false_of_decomp plan.tasks hnd pre3 d suf3 hdone3 hex
    have h1 := selectScan_skips_front (plan.tasks.map (fun w => (w.id, w)))
      plan.tasks [] hskip
    rw [List.append_nil] at h1
    unfold select_next_task
    simp only [hm]
    rw [h1]
    rfl

/-- Plan with an eligible pending task after a done dependency. -/
def planSel : Plan :=
  { version := 1, objectives := [],
    tasks :=
      [{ id := "a", objective := "o", derived_from := "d", status := "done" },
       { id := "b", objective := "o", derived_from := "d", status := "pending",
         depends_on := ["a"] }] }

/-- Plan with an `active` task. -/
def planAct : Plan :=
  { version := 1, objectives := [],
    tasks := [{ id := "x", objective := "o", derived_from := "d", status := "active" }] }

/-- Plan whose pending task has only a missing dependency. -/
def planDep : Plan :=
  { version := 1, objectives := [],
    tasks := [{ id := "p", objective := "o", derived_from := "d", status := "pending",
                depends_on := ["zz"] }] }

/-- Witness for the amended C5 at four concrete plans: the returned
task's first-eligible decomposition, the absent sentinel, the two
errors, and the forward scan parts producing the selection outcomes. -/
theorem select_next_task_characterization_witness :
    (∃ pre suf, planSel.tasks = pre ++
        ({ id := "b", objective := "o", derived_from := "d", status := "pending",
           depends_on := ["a"] } : Task) :: suf ∧
        ∀ u ∈ pre, scanSkips planSel.tasks u) ∧
    (∀ t ∈ planC5.tasks, t.status ≠ "active" ∧
      (t.status = "pending" → ¬ allDepsDone planC5.tasks t)) ∧
    (∃ t ∈ planAct.tasks, t.status = "active") ∧
    (∃ t ∈ planDep.tasks, t.status = "pending" ∧
      (∃ pre suf, t.depends_on = pre ++ "zz" :: suf ∧ ∀ p ∈ pre, existsDone planDep.tasks p) ∧
      ¬ ∃ u ∈ planDep.tasks, u.id = "zz") ∧
    select_next_task planSel = .ok (some
      { id := "b", objective := "o", derived_from := "d", status := "pending",
        depends_on := ["a"] }) ∧
    select_next_task planC5 = .ok none := by
  have hallSel : allDepsDone planSel.tasks
      { id := "b", objective := "o", derived_from := "d", status := "pending",
        depends_on := ["a"] } := by
    intro d hd
    have hd2 : d = "a" := by simpa using hd
    subst hd2
    exact ⟨{ id := "a", objective := "o", derived_from := "d", status := "done" },
      List.mem_cons_self _ _, rfl, rfl⟩
  have hpreSel :
      ∀ u ∈ [({ id := "a", objective := "o", derived_from := "d", status := "done" } : Task)],
        scanSkips planSel.tasks u := by
    intro u hu
    have hu2 : u = { id := "a", objective := "o", derived_from := "d", status := "done" } := by
      simpa using hu
    subst hu2
    exact ⟨by decide, fun hp => absurd hp (by decide)⟩
  have hskipC5 : ∀ u ∈ planC5.tasks, scanSkips planC5.tasks u := by
    intro u hu
    have hu2 : u = { id := "a", objective := "o", derived_from := "d", status := "failed" } ∨
        u = { id := "t", objective := "o", derived_from := "d", status := "pending",
              depends_on := ["a", "zz"] } := by
      simpa [planC5] using hu
    rcases hu2 with rfl | rfl
    · exact ⟨by decide, fun hp => absurd hp (by decide)⟩
    · refine ⟨by decide, fun _ => ?_⟩
      exact ⟨[], "a", ["zz"], rfl, by simp,
        ⟨{ id := "a", objective := "o", derived_from := "d", status := "failed" },
          List.mem_cons_self _ _, rfl, by decide⟩⟩
  refine ⟨?_, ?_, ?_, ?_, ?_, ?_⟩
  · obtain ⟨pre, suf, hdecomp, _, _, hskip⟩ :=
      (select_next_task_characterization planSel).1 _ rfl
    exact ⟨pre, suf, hdecomp, fun u hu => (hskip u hu).1⟩
  · exact (select_next_task_characterization planC5).2.1 rfl
  · exact (select_next_task_characterization planAct).2.2.1 rfl
  · exact (select_next_task_characterization planDep).2.2.2.1 "zz" rfl
  · exact ((select_next_task_characterization planSel).2.2.2.2.1
      [{ id := "a", objective := "o", derived_from := "d", status := "done" }]
      { id := "b", objective := "o", derived_from := "d", status := "pending",
        depends_on := ["a"] } [] rfl hpreSel (by decide) (by decide)).2.1 rfl hallSel
  · exact (select_next_task_characterization planC5).2.2.2.2.2
      (by decide) (by decide) hskipC5

/-!  Concrete loop fixtures shared by the control-loop theorems: one
pending task, a strict-mode context, and an agent that reports failure
with no file changes. -/

/-- The single pending fixture task. -/
def taskT1 : Task := { id := "t1", objective := "o1", derived_from := "d", status := "pending" }

/-- A plan holding only `taskT1`. -/
def planOne : Plan := { version := 1, objectives := [], tasks := [taskT1] }

/-- Initial disk: the plan exists, no lock, no last result, no progress. -/
def diskInit : LoopDisk :=
  { plan := some planOne, activeTaskFile := none, lastResult := none, progress := none }

/-- Strict-mode loop context over the fixture project. -/
def ctxRun : LoopCtx :=
  { task_timeout_seconds := 60, strict_schema_validation := true,
    project_root := ["proj"], design_dir := ["proj", "design"], state_dir := ["proj", "ai"] }

/-- The same context with strict validation off. -/
def ctxNoStrict : LoopCtx := { ctxRun with strict_schema_validation := false }

/-- Initial loop state for given retry and consecutive-failure configs. -/
def stInit (maxRetries maxConsecutive : Nat) : LoopState :=
  { disk := diskInit, tracker := mkTracker maxRetries maxConsecutive }

/-- A schema-valid failed agent result with no changes. -/
def failPayload : JValue :=
  .obj [("status", .str "failed"), ("files_changed", .arr []),
        ("tests_run", .arr []), ("notes", .str "")]

/-- The scripted failed reply. -/
def failResp : AgentResp := .reply failPayload ""

/-- C1 counterexample: with `max_consecutive_failures = 2` and two
consecutive failed iterations, the loop halts with the claimed message,
but the failed task is left `active` in the persisted plan, not
`pending` — the halt fires before any reset and the last plan write was
the activation write. -/
theorem two_failures_leave_task_active :
    runMsg (runLoop ctxRun (stInit 3 2) [failResp, failResp]) = some .maxConsecutiveFailures ∧
    msgText .maxConsecutiveFailures = "Max consecutive failures reached." ∧
    planTaskStatus (runState (runLoop ctxRun (stInit 3 2) [failResp, failResp])) "t1" =
      some "active" ∧
    planTaskStatus (runState (runLoop ctxRun (stInit 3 2) [failResp, failResp])) "t1" ≠
      some "pending" := by
  have h3 : planTaskStatus (runState (runLoop ctxRun (stInit 3 2) [failResp, failResp])) "t1" =
      some "active" := rfl
  exact ⟨rfl, rfl, h3, by rw [h3]; decide⟩

/-- C1 (amended): for any configured `max_retries_per_task = k` with
`k ≥ 1` and `max_consecutive_failures = 2`, two consecutive failed
iterations halt the run with "Max consecutive failures reached." and the
task that just failed is left in status `active` in the persisted plan. -/
theorem two_failures_halt_task_active (k : Nat) (hk : 1 ≤ k) :
    runMsg (runLoop ctxRun (stInit k 2) [failResp, failResp]) = some .maxConsecutiveFailures ∧
    planTaskStatus (runState (runLoop ctxRun (stInit k 2) [failResp, failResp])) "t1" =
      some "active" := by
  have hst : stInit k 2 = stInit 1 2 := by
    unfold stInit mkTracker
    rw [Nat.min_eq_right hk, Nat.min_self]
  rw [hst]
  exact ⟨rfl, rfl⟩

/-- Witness for the amended C1 at `k = 2`. -/
theorem two_failures_halt_task_active_witness :
    runMsg (runLoop ctxRun (stInit 2 2) [failResp, failResp]) = some .maxConsecutiveFailures ∧
    planTaskStatus (runState (runLoop ctxRun (stInit 2 2) [failResp, failResp])) "t1" =
      some "active" :=
  two_failures_halt_task_active 2 (by decide)

/-- C3 counterexample: with `max_retries_per_task = 0` the clamp gives an
effective limit of 0, so the very first failure finalizes the task
`failed` and halts — the task is never reset to `pending` and there is no
second failure. -/
theorem zero_retries_fail_immediately :
    runMsg (runLoop ctxRun (stInit 0 2) [failResp]) = some .taskFailedTwice ∧
    msgText .taskFailedTwice = "Task failed more than once." ∧
    planTaskStatus (runState (runLoop ctxRun (stInit 0 2) [failResp])) "t1" = some "failed" ∧
    planTaskStatus (runState (runLoop ctxRun (stInit 0 2) [failResp])) "t1" ≠
      some "pending" := by
  have h3 : planTaskStatus (runState (runLoop ctxRun (stInit 0 2) [failResp])) "t1" =
      some "failed" := rfl
  exact ⟨rfl, rfl, h3, by rw [h3]; decide⟩

/-- `attemptsOf` on a single-binding attempt table. -/
theorem attemptsOf_mk (a b c : Nat) (tid : String) (n : Nat) :
    attemptsOf { max_retries_per_task := a, max_consecutive_failures := b,
                 attempts := [(tid, n)], consecutive_failures := c } tid = n := by
  simp [attemptsOf]

/-- C3 (amended): the effective retry limit is `min(k, 1)` and
`can_retry` is the `attempts ≤ limit` test; provided `k ≥ 1` (so one
retry is allowed) and the consecutive-failure ceiling is not reached, a
failed task is reset to `pending` exactly once per run — the first
failure leaves `can_retry` true and the loop continues with the task
`pending`; the second failure leaves it false and the run halts with the
task finalized `failed`; with `k = 0` even the first failure exhausts
the limit. -/
theorem retry_clamp_behavior (k mcf : Nat) (tid : String) (hk : 1 ≤ k) :
    (mkTracker k mcf).max_retries_per_task = min k 1 ∧
    (∀ (tr : RetryTracker) (i : String),
      can_retry tr i = true ↔ attemptsOf tr i ≤ tr.max_retries_per_task) ∧
    can_retry (record_failure (mkTracker k mcf) tid) tid = true ∧
    can_retry (record_failure (record_failure (mkTracker k mcf) tid) tid) tid = false ∧
    can_retry (record_failure (mkTracker 0 mcf) tid) tid = false ∧
    isNextStep (stepIter ctxRun (stInit k 3) failResp) = true ∧
    planTaskStatus (outState (stepIter ctxRun (stInit k 3) failResp)) "t1" = some "pending" ∧
    runMsg (runLoop ctxRun (stInit k 3) [failResp, failResp]) = some .taskFailedTwice ∧
    planTaskStatus (runState (runLoop ctxRun (stInit k 3) [failResp, failResp])) "t1" =
      some "failed" := by
  have hmin : min k 1 = 1 := Nat.min_eq_right hk
  have hst : stInit k 3 = stInit 1 3 := by
    unfold stInit mkTracker
    rw [hmin, Nat.min_self]
  have h1 : record_failure (mkTracker k mcf) tid =
      { max_retries_per_task := min k 1, max_consecutive_failures := mcf,
        attempts := [(tid, 1)], consecutive_failures := 1 } := rfl
  have hat1 : attemptsOf ({ max_retries_per_task := min k 1,
                            max_consecutive_failures := mcf,
                            attempts := [(tid, 1)], consecutive_failures := 1 } : RetryTracker)
      tid = 1 := by
    simp [attemptsOf, lookupTask]
  have h2 : record_failure ({ max_retries_per_task := min k 1,
                              max_consecutive_failures := mcf,
                              attempts := [(tid, 1)],
                              consecutive_failures := 1 } : RetryTracker) tid =
      { max_retries_per_task := min k 1, max_consecutive_failures := mcf,
        attempts := [(tid, 2)], consecutive_failures := 2 } := by
    simp [record_failure, hat1, setAttempt]
  have hat2 : attemptsOf ({ max_retries_per_task := min k 1,
                            max_consecutive_failures := mcf,
                            attempts := [(tid, 2)], consecutive_failures := 2 } : RetryTracker)
      tid = 2 := by
    simp [attemptsOf, lookupTask]
  refine ⟨rfl, ?_, ?_, ?_, ?_, ?_, ?_, ?_, ?_⟩
  · intro tr i
    simp [can_retry]
  · rw [h1]
    simp [can_retry, attemptsOf_mk, hmin]
  · rw [h1, h2]
    simp [can_retry, attemptsOf_mk, hmin]
  · have h0 : record_failure (mkTracker 0 mcf) tid =
        { max_retries_per_task := 0, max_consecutive_failures := mcf,
          attempts := [(tid, 1)], consecutive_failures := 1 } := rfl
    rw [h0]
    simp [can_retry, attemptsOf_mk]
  · rw [hst]; rfl
  · rw [hst]; rfl
  · rw [hst]; rfl
  · rw [hst]; rfl

/-- Witness for the amended C3 at `k = 5`, `tid = "x"`. -/
theorem retry_clamp_behavior_witness :
    (mkTracker 5 2).max_retries_per_task = min 5 1 ∧
    can_retry (record_failure (mkTracker 5 2) "x") "x" = true ∧
    can_retry (record_failure (record_failure (mkTracker 5 2) "x") "x") "x" = false ∧
    can_retry (record_failure (mkTracker 0 2) "x") "x" = false :=
  ⟨(retry_clamp_behavior 5 2 "x" (by decide)).1,
   (retry_clamp_behavior 5 2 "x" (by decide)).2.2.1,
   (retry_clamp_behavior 5 2 "x" (by decide)).2.2.2.1,
   (retry_clamp_behavior 5 2 "x" (by decide)).2.2.2.2.1⟩

/-- The fixture task after activation. -/
def taskT1active : Task :=
  { id := "t1", objective := "o1", derived_from := "d", status := "active" }

/-- The fixture plan after activation. -/
def planOneActive : Plan := { version := 1, objectives := [], tasks := [taskT1active] }

/-- The active-task lock the fixture run writes. -/
def activeT1 : ActiveTask := { task := taskT1active, timeout_seconds := 60 }

/-- The fixture disk right after the three activation writes. -/
def d4run : LoopDisk :=
  { plan := some planOneActive, activeTaskFile := some activeT1,
    lastResult := none, progress := some (progressContent planOneActive) }

/-- Under strict mode, an invalid agent payload makes the iteration halt
at `write_last_result` with the validation error, with the lock already
cleared and the last result not persisted. -/
theorem afterReply_invalid (ctx : LoopCtx) (tracker : RetryTracker) (plan2 : Plan)
    (taskId : String) (d4 : LoopDisk) (payload : JValue) (c : String)
    (hstrict : ctx.strict_schema_validation = true)
    (hval : validate_codex_result payload = some c) :
    afterReply ctx tracker plan2 taskId d4 payload =
      .halted (.state (.validation c))
        { disk := { d4 with activeTaskFile := none }, tracker := tracker } := by
  unfold afterReply
  rw [hstrict]
  simp [hval]

/-- Without strict validation and with a passing policy check, a status
outside the known trio reaches the end of the branch chain and stops the
loop with the unexpected-status message. -/
theorem afterReply_unexpected (ctx : LoopCtx) (tracker : RetryTracker) (plan2 : Plan)
    (taskId : String) (d4 : LoopDisk) (payload : JValue) (entries : List JValue)
    (hval : (if ctx.strict_schema_validation then validate_codex_result payload else none) =
      none)
    (hiter : pyIterEntries (jGetD payload "files_changed" (.arr [])) = some entries)
    (hpol : assert_no_forbidden_changes entries ctx.project_root ctx.design_dir ctx.state_dir =
      none)
    (hsucc : statusIs (jGetOpt payload "status") "success" = false)
    (hblock : statusIs (jGetOpt payload "status") "blocked" = false)
    (hfail : statusIs (jGetOpt payload "status") "failed" = false) :
    afterReply ctx tracker plan2 taskId d4 payload =
      .stopped (.unexpectedStatus (jGetOpt payload "status"))
        { disk := { d4 with activeTaskFile := none, lastResult := some payload },
          tracker := tracker } := by
  unfold afterReply
  rw [hval]
  simp only [hiter, hpol]
  simp [hsucc, hblock, hfail]

/-- A schema-shaped agent payload with an arbitrary status value. -/
def payloadStatus (v : JValue) : JValue :=
  .obj [("status", v), ("files_changed", .arr []), ("tests_run", .arr []), ("notes", .str "")]

/-- C9 counterexample: under strict schema validation, an agent result
with status `weird` makes the iteration fail at `write_last_result` with
`StateValidation` on `codex_result.status` — it never reaches the
"unexpected status" stop. -/
theorem unexpected_status_fails_validation_first :
    stepErrOf (stepIter ctxRun (stInit 3 2) (.reply (payloadStatus (.str "weird")) "")) =
      some (.state (.validation "codex_result.status")) ∧
    stepMsg (stepIter ctxRun (stInit 3 2) (.reply (payloadStatus (.str "weird")) "")) =
      none :=
  ⟨rfl, rfl⟩

/-- C9 (amended): for every status value outside the trio, under strict
validation the iteration halts at the last-result write with the
validation error (before the status branch); with strict validation off
the loop halts with the "unexpected status" stop message carrying that
value. -/
theorem unexpected_status_behavior (v : JValue)
    (h1 : v ≠ .str "success") (h2 : v ≠ .str "failed") (h3 : v ≠ .str "blocked") :
    stepErrOf (stepIter ctxRun (stInit 3 2) (.reply (payloadStatus v) "")) =
      some (.state (.validation "codex_result.status")) ∧
    stepMsg (stepIter ctxNoStrict (stInit 3 2) (.reply (payloadStatus v) "")) =
      some (.unexpectedStatus (some v)) := by
  have hval : validate_codex_result (payloadStatus v) = some "codex_result.status" := by
    cases v with
    | str s =>
      have hs1 : s ≠ "success" := fun hs => h1 (by rw [hs])
      have hs2 : s ≠ "failed" := fun hs => h2 (by rw [hs])
      have hs3 : s ≠ "blocked" := fun hs => h3 (by rw [hs])
      simp [validate_codex_result, payloadStatus, requireKeys, rejectExtraKeys, jfield,
        jLookup, requireEnum, codexStatusList, requireStringList, requireString,
        hs1, hs2, hs3]
    | null => rfl
    | bool b => rfl
    | int n => rfl
    | arr xs => rfl
    | obj fs => rfl
  have hsv : jGetOpt (payloadStatus v) "status" = some v := rfl
  have hsucc : statusIs (jGetOpt (payloadStatus v) "status") "success" = false := by
    rw [hsv]
    cases v with
    | str s =>
      simp only [statusIs, decide_eq_false_iff_not]
      exact fun hs => h1 (by rw [hs])
    | null => rfl
    | bool b => rfl
    | int n => rfl
    | arr xs => rfl
    | obj fs => rfl
  have hblock : statusIs (jGetOpt (payloadStatus v) "status") "blocked" = false := by
    rw [hsv]
    cases v with
    | str s =>
      simp only [statusIs, decide_eq_false_iff_not]
      exact fun hs => h3 (by rw [hs])
    | null => rfl
    | bool b => rfl
    | int n => rfl
    | arr xs => rfl
    | obj fs => rfl
  have hfail : statusIs (jGetOpt (payloadStatus v) "status") "failed" = false := by
    rw [hsv]
    cases v with
    | str s =>
      simp only [statusIs, decide_eq_false_iff_not]
      exact fun hs => h2 (by rw [hs])
    | null => rfl
    | bool b => rfl
    | int n => rfl
    | arr xs => rfl
    | obj fs => rfl
  constructor
  · have hpre : stepIter ctxRun (stInit 3 2) (.reply (payloadStatus v) "") =
        afterReply ctxRun (mkTracker 3 2) planOneActive "t1" d4run (payloadStatus v) := rfl
    rw [hpre, afterReply_invalid ctxRun (mkTracker 3 2) planOneActive "t1" d4run
      (payloadStatus v) "codex_result.status" rfl hval]
    rfl
  · have hpreNS : stepIter ctxNoStrict (stInit 3 2) (.reply (payloadStatus v) "") =
        afterReply ctxNoStrict (mkTracker 3 2) planOneActive "t1" d4run (payloadStatus v) := rfl
    rw [hpreNS, afterReply_unexpected ctxNoStrict (mkTracker 3 2) planOneActive "t1" d4run
      (payloadStatus v) [] rfl rfl rfl hsucc hblock hfail]
    rw [stepMsg, hsv]

/-- Witness for the amended C9 at status `odd`. -/
theorem unexpected_status_behavior_witness :
    stepErrOf (stepIter ctxRun (stInit 3 2) (.reply (payloadStatus (.str "odd")) "")) =
      some (.state (.validation "codex_result.status")) ∧
    stepMsg (stepIter ctxNoStrict (stInit 3 2) (.reply (payloadStatus (.str "odd")) "")) =
      some (.unexpectedStatus (some (.str "odd"))) :=
  unexpected_status_behavior (.str "odd")
    (by intro h; injection h with h4; exact absurd h4 (by decide))
    (by intro h; injection h with h4; exact absurd h4 (by decide))
    (by intro h; injection h with h4; exact absurd h4 (by decide))

/-!  Machinery for C2: activating the selected task turns the next
selection into the active-plan `PlannerError`. -/

/-- Whether the task found under a key is `done` (`none` when absent):
the only data `dependencies_satisfied` reads from the map. -/
def statusDoneAt (m : List (String × Task)) (d : String) : Option Bool :=
  (lookupTask m d).map (fun u => decide (u.status = "done"))

/-- `dependencies_satisfied` only depends on existence and done-ness of
each dependency. -/
theorem depsSat_ext (deps : List String) (m m2 : List (String × Task))
    (hpt : ∀ d, statusDoneAt m2 d = statusDoneAt m d) :
    dependencies_satisfied deps m2 = dependencies_satisfied deps m := by
  induction deps with
  | nil => rfl
  | cons dep rest ih =>
    have hd := hpt dep
    unfold statusDoneAt at hd
    simp only [dependencies_satisfied]
    cases hl : lookupTask m dep with
    | none =>
      rw [hl] at hd
      simp only [Option.map_none'] at hd
      cases hl2 : lookupTask m2 dep with
      | none => rfl
      | some u2 => rw [hl2] at hd; simp at hd
    | some u =>
      rw [hl] at hd
      cases hl2 : lookupTask m2 dep with
      | none => rw [hl2] at hd; simp at hd
      | some u2 =>
        rw [hl2] at hd
        simp only [Option.map_some', Option.some.injEq] at hd
        have hiff : (u2.status = "done") ↔ (u.status = "done") := decide_eq_decide.mp hd
        show (if u2.status ≠ "done" then (Except.ok false : Except PlannerErr Bool)
            else dependencies_satisfied rest m2) =
          (if u.status ≠ "done" then (Except.ok false : Except PlannerErr Bool)
            else dependencies_satisfied rest m)
        by_cases hs : u.status = "done"
        · rw [if_neg (by simpa using hiff.mpr hs), if_neg (by simpa using hs)]
          exact ih
        · rw [if_pos (by simpa using fun hx => hs (hiff.mp hx)),
            if_pos (by simpa using hs)]

/-- `setTaskStatusFirst` passes over a prefix free of the target id. -/
theorem setFirst_append_of_no_id (pre rest : List Task) (i s : String)
    (h : ∀ u ∈ pre, u.id ≠ i) :
    setTaskStatusFirst (pre ++ rest) i s = pre ++ setTaskStatusFirst rest i s := by
  induction pre with
  | nil => rfl
  | cons u pre2 ih =>
    simp only [List.cons_append, setTaskStatusFirst]
    rw [if_neg (h u (List.mem_cons_self u pre2))]
    simp only [List.append_eq]
    rw [ih (fun w hw => h w (List.mem_cons_of_mem u hw))]

/-- Scanning a prefix of skippable tasks reaches the `active` head and
raises. -/
theorem selectScan_prefix_active (m2 : List (String × Task)) (pre suf : List Task)
    (t2 : Task) (ht2 : t2.status = "active")
    (hpre : ∀ u ∈ pre, u.status ≠ "active" ∧
      (u.status = "pending" → dependencies_satisfied u.depends_on m2 = .ok false)) :
    selectScan m2 (pre ++ t2 :: suf) = .error .activeWithoutContext := by
  induction pre with
  | nil =>
    simp only [List.nil_append, selectScan]
    rw [if_pos ht2]
  | cons u pre2 ih =>
    have hu := hpre u (List.mem_cons_self u pre2)
    simp only [List.cons_append, selectScan]
    rw [if_neg hu.1]
    by_cases hp : u.status = "pending"
    · rw [if_neg (by simpa using hp), hu.2 hp]
      exact ih (fun w hw => hpre w (List.mem_cons_of_mem u hw))
    · rw [if_pos (by simpa using hp)]
      exact ih (fun w hw => hpre w (List.mem_cons_of_mem u hw))

/-- Swapping one list element for another with the same id and the same
done-ness leaves every `statusDoneAt` observation unchanged. -/
theorem statusDone_pointwise (pre suf : List Task) (t t2 : Task)
    (hid : t2.id = t.id)
    (hdone : (t2.status = "done") ↔ (t.status = "done")) :
    ∀ d, statusDoneAt ((pre ++ t2 :: suf).map (fun u => (u.id, u))) d =
      statusDoneAt ((pre ++ t :: suf).map (fun u => (u.id, u))) d := by
  intro d
  unfold statusDoneAt
  simp only [List.map_append, List.map_cons]
  rw [lookupTask_append, lookupTask_append]
  cases hp : lookupTask (pre.map fun u => (u.id, u)) d with
  | some w => rfl
  | none =>
    by_cases hd : t.id = d
    · have h2 : lookupTask ((t2.id, t2) :: suf.map (fun u => (u.id, u))) d = some t2 := by
        simp [lookupTask, hid, hd]
      have h3 : lookupTask ((t.id, t) :: suf.map (fun u => (u.id, u))) d = some t := by
        simp [lookupTask, hd]
      rw [h2, h3]
      simp only [Option.map_some']
      exact congrArg some (decide_eq_decide.mpr hdone)
    · have ht2d : ¬ (t2.id = d) := by rw [hid]; exact hd
      have h2 : lookupTask ((t2.id, t2) :: suf.map (fun u => (u.id, u))) d =
          lookupTask (suf.map (fun u => (u.id, u))) d := by
        simp [lookupTask, ht2d]
      have h3 : lookupTask ((t.id, t) :: suf.map (fun u => (u.id, u))) d =
          lookupTask (suf.map (fun u => (u.id, u))) d := by
        simp [lookupTask, hd]
      rw [h2, h3]

/-- After `activate_task` on the task `select_next_task` chose, the plan
holds an `active` task and the next selection raises the active-plan
`PlannerError`: earlier tasks are skipped exactly as before (activation
changed no done-ness), and the scan then meets the activated task. -/
theorem select_after_activate (plan : Plan) (t : Task) (timeoutSeconds : Int)
    (plan2 : Plan) (a : ActiveTask)
    (hsel : select_next_task plan = .ok (some t))
    (hact : activate_task plan t.id timeoutSeconds = .ok (plan2, a)) :
    (∃ u ∈ plan2.tasks, u.status = "active") ∧
    select_next_task plan2 = .error .activeWithoutContext := by
  unfold select_next_task at hsel
  cases hm : task_map plan.tasks with
  | error e => rw [hm] at hsel; cases hsel
  | ok m =>
    rw [hm] at hsel
    obtain ⟨pre, suf, heq, hpend, _, hpre⟩ := selectScan_ok_some m plan.tasks t hsel
    have hmeq : m = plan.tasks.map (fun u => (u.id, u)) := by
      simpa using taskMapGo_ok_eq plan.tasks [] m hm
    obtain ⟨hnd, hne, _⟩ := taskMapGo_ok_facts plan.tasks [] m hm
    unfold activate_task at hact
    cases hf : find_task plan t.id with
    | none => rw [hf] at hact; cases hact
    | some t0 =>
      rw [hf] at hact
      simp only [Except.ok.injEq, Prod.mk.injEq] at hact
      obtain ⟨hplan2, _⟩ := hact
      have hpreid : ∀ u ∈ pre, u.id ≠ t.id := by
        intro u hu he
        have hnd2 := hnd
        rw [heq, List.map_append, List.map_cons] at hnd2
        rcases List.nodup_append.mp hnd2 with ⟨_, _, hdisj⟩
        exact hdisj (List.mem_map.mpr ⟨u, hu, rfl⟩) (by rw [he]; exact List.mem_cons_self _ _)
      have htasks2 : plan2.tasks = pre ++ ({ t with status := "active" }) :: suf := by
        rw [← hplan2]
        show setTaskStatusFirst plan.tasks t.id "active" = _
        rw [heq, setFirst_append_of_no_id _ _ _ _ hpreid]
        simp [setTaskStatusFirst]
      have hmemtasks : ∀ u ∈ pre ++ ({ t with status := "active" }) :: suf,
          u.id ≠ "" := by
        intro u hu
        rcases List.mem_append.mp hu with h1 | h1
        · exact hne u (by rw [heq]; exact List.mem_append_left _ h1)
        · rcases List.mem_cons.mp h1 with h2 | h2
          · subst h2
            exact hne t (by rw [heq]; exact List.mem_append_right _ (List.mem_cons_self _ _))
          · exact hne u (by rw [heq]; exact List.mem_append_right _ (List.mem_cons_of_mem _ h2))
      have hids2 : (pre ++ ({ t with status := "active" }) :: suf).map (fun u => u.id) =
          plan.tasks.map (fun u => u.id) := by
        rw [heq]
        simp
      have hm2 : task_map plan2.tasks =
          .ok (plan2.tasks.map (fun u => (u.id, u))) := by
        rw [htasks2]
        unfold task_map
        have := taskMapGo_ok_of (pre ++ ({ t with status := "active" }) :: suf) []
          (by rw [hids2]; exact hnd) hmemtasks (fun u _ => rfl)
        rw [this]
        simp
      have hpt : ∀ d, statusDoneAt (plan2.tasks.map (fun u => (u.id, u))) d =
          statusDoneAt m d := by
        intro d
        rw [htasks2, hmeq, heq]
        exact statusDone_pointwise pre suf t ({ t with status := "active" }) rfl
          (by rw [hpend]; show ("active" = "done") ↔ ("pending" = "done"); decide) d
      have hpre2 : ∀ u ∈ pre, u.status ≠ "active" ∧
          (u.status = "pending" →
            dependencies_satisfied u.depends_on
              (plan2.tasks.map (fun w => (w.id, w))) = .ok false) := by
        intro u hu
        refine ⟨(hpre u hu).1, fun hp => ?_⟩
        rw [depsSat_ext u.depends_on m (plan2.tasks.map (fun w => (w.id, w))) hpt]
        exact (hpre u hu).2 hp
      refine ⟨⟨{ t with status := "active" }, by
        rw [htasks2]; exact List.mem_append_right _ (List.mem_cons_self _ _), rfl⟩, ?_⟩
      unfold select_next_task
      rw [hm2]
      have hscan := selectScan_prefix_active (plan2.tasks.map (fun w => (w.id, w)))
        pre suf ({ t with status := "active" }) rfl hpre2
      rw [htasks2]
      rw [htasks2] at hscan
      exact hscan

/-- If `afterReply` halts on a policy violation, the active-task lock was
already cleared and the plan artifact is whatever the activation phase
left. -/
theorem afterReply_policy_inv (ctx : LoopCtx) (tracker : RetryTracker) (plan2 : Plan)
    (taskId : String) (d4 : LoopDisk) (payload : JValue) (v : PolicyErr) (st2 : LoopState)
    (h : afterReply ctx tracker plan2 taskId d4 payload = .halted (.policy v) st2) :
    st2.disk.activeTaskFile = none ∧ st2.disk.plan = d4.plan := by
  simp only [afterReply] at h
  split at h
  · simp at h
  · split at h
    · simp at h
    · split at h
      · simp only [StepOutcome.halted.injEq, HaltErr.policy.injEq] at h
        obtain ⟨_, hst⟩ := h
        rw [← hst]
        exact ⟨rfl, rfl⟩
      · repeat' split at h
        all_goals simp at h

/-- If an iteration halts on a policy violation, it did so after a
successful selection and activation: the lock is cleared, the persisted
plan is the activated plan, and that plan passed the strict write
validation. -/
theorem stepIter_policy_inv (ctx : LoopCtx) (st : LoopState) (resp : AgentResp)
    (v : PolicyErr) (st2 : LoopState)
    (h : stepIter ctx st resp = .halted (.policy v) st2) :
    st2.disk.activeTaskFile = none ∧
    ∃ plan t plan2 a, select_next_task plan = .ok (some t) ∧
      activate_task plan t.id ctx.task_timeout_seconds = .ok (plan2, a) ∧
      st2.disk.plan = some plan2 ∧
      (ctx.strict_schema_validation = true → planValidS plan2 = true) := by
  simp only [stepIter] at h
  split at h
  · simp at h
  · split at h
    · simp at h
    · split at h
      · simp at h
      · simp at h
      · split at h
        · simp at h
        · split at h
          · simp at h
          · split at h
            · simp at h
            · split at h
              · simp at h
              · simp at h
              · obtain ⟨hfileEq, hplanEq⟩ :=
                  afterReply_policy_inv _ _ _ _ _ _ _ _ h
                refine ⟨hfileEq, _, _, _, _, by assumption, by assumption,
                  by rw [hplanEq], ?_⟩
                intro hstrict
                by_contra hbad
                simp_all

/-- C2: when the policy enforcer raises a violation, the Active Task file
has already been cleared while the persisted plan still holds the task as
`active`; consequently on the next iteration the loop-start lock check
does not trip and `select_next_task` raises the active-plan
`PlannerError`. -/
theorem policy_violation_next_run (ctx : LoopCtx) (st : LoopState) (resp : AgentResp)
    (v : PolicyErr) (st2 : LoopState)
    (h : stepIter ctx st resp = .halted (.policy v) st2) :
    st2.disk.activeTaskFile = none ∧
    (∃ p, st2.disk.plan = some p ∧ (∃ u ∈ p.tasks, u.status = "active") ∧
      select_next_task p = .error .activeWithoutContext) ∧
    (∀ resp2, stepIter ctx st2 resp2 = .halted (.planner .activeWithoutContext) st2) := by
  obtain ⟨hfile, plan, t, plan2, a, hsel, hact, hplan, hvalid⟩ :=
    stepIter_policy_inv ctx st resp v st2 h
  obtain ⟨hex, hsel2⟩ := select_after_activate plan t ctx.task_timeout_seconds plan2 a hsel hact
  refine ⟨hfile, ⟨plan2, hplan, hex, hsel2⟩, ?_⟩
  intro resp2
  have hens : ensurePlanL ctx st2.disk = .ok (plan2, st2.disk) := by
    unfold ensurePlanL
    rw [hplan]
    cases hstrict : ctx.strict_schema_validation with
    | true => simp [hvalid hstrict]
    | false => simp
  unfold stepIter
  simp only [hfile, Option.isSome_none, Bool.false_eq_true, if_false, hens, hsel2]

/-- A schema-valid success payload that reports a forbidden change under
the design directory. -/
def badPayload : JValue :=
  .obj [("status", .str "success"), ("files_changed", .arr [.str "design/spec.md"]),
        ("tests_run", .arr []), ("notes", .str "")]

/-- The loop state the fixture run is left in when the policy enforcer
raises: lock cleared, plan still holding the active task, last result
persisted. -/
def stAfterPolicy : LoopState :=
  { disk :=
      { plan := some planOneActive, activeTaskFile := none,
        lastResult := some badPayload, progress := some (progressContent planOneActive) },
    tracker := mkTracker 3 2 }

/-- Witness for C2: the forbidden `design/spec.md` change halts the
fixture iteration with a policy violation, and the theorem applies. -/
theorem policy_violation_next_run_witness :
    stepIter ctxRun (stInit 3 2) (.reply badPayload "") =
      .halted (.policy (.forbidden ["design/spec.md"])) stAfterPolicy ∧
    stAfterPolicy.disk.activeTaskFile = none ∧
    (∃ p, stAfterPolicy.disk.plan = some p ∧ (∃ u ∈ p.tasks, u.status = "active") ∧
      select_next_task p = .error .activeWithoutContext) ∧
    (∀ resp2, stepIter ctxRun stAfterPolicy resp2 =
      .halted (.planner .activeWithoutContext) stAfterPolicy) := by
  have h0 : stepIter ctxRun (stInit 3 2) (.reply badPayload "") =
      .halted (.policy (.forbidden ["design/spec.md"])) stAfterPolicy := rfl
  obtain ⟨h1, h2, h3⟩ := policy_violation_next_run ctxRun (stInit 3 2) (.reply badPayload "")
    (.forbidden ["design/spec.md"]) stAfterPolicy h0
  exact ⟨h0, h1, h2, h3⟩

end Shepherd
